import Mathlib

/-!
# behavior.js (examples/example_ajax/dist)

A shallow embedding of the three functions of `behavior.js`

    function commonCall(url) {
        var xhttp = new XMLHttpRequest();
        xhttp.onreadystatechange = function() {
            if (this.readyState == 4 && this.status == 200) {
                document.getElementById("val").innerHTML = this.responseText;
            }
        };
        xhttp.open("GET", url, true);
        xhttp.send();
    }
    function up()   { commonCall("/up"); }
    function down() { commonCall("/down"); }

together with the part of the host the script touches: the document tree,
`getElementById`, the `innerHTML` setter and getter, the `XMLHttpRequest`
objects with `open` and `send`, and the delivery of `readystatechange` events.

The state is passed explicitly.  A script function returns an
`Option Completion`: a completion is either normal or a thrown exception, each
with the state reached; `none` says that the run leaves the part of the host
that is modelled (a URL, or XML markup, that the models below do not read), so
that nothing is claimed about it.  An exception thrown by an event handler is
caught by the event dispatch and recorded in `Browser.reported`, as a browser
does.  Every call the script makes into the host is appended to
`Browser.calls`, so that the requests and the writes can be counted.
-/

set_option autoImplicit false

namespace Behavior

/-! ## The document tree -/

/-- A node of the document.  `beyond markup` stands for the nodes the HTML
parser makes of markup that lies outside the modelled part of HTML: they are
there, and nothing is known of them. -/
inductive Node where
  | text (data : String)
  | element (localName : String) (attributes : List (String × String)) (children : List Node)
  | beyond (markup : String)

/-- Result of a search for an element: the path to it (child positions from
the root), no such element, or not known because the search met `beyond`. -/
inductive Lookup where
  | found (path : List Nat)
  | absent
  | beyond
deriving DecidableEq

/-- A result among later siblings, seen from one position earlier. -/
def Lookup.shift : Lookup → Lookup
  | .found (i :: p) => .found ((i + 1) :: p)
  | r => r

mutual
/-- First element in tree order, within a node, whose id is `id`; the path is
relative to the node, the empty path being the node itself. -/
def lookupNode (id : String) : Node → Lookup
  | .text _ => .absent
  | .beyond _ => .beyond
  | .element _ attrs cs =>
    if attrs.lookup "id" = some id then .found [] else lookupList id cs
/-- First element in tree order, within a list of siblings, whose id is `id`. -/
def lookupList (id : String) : List Node → Lookup
  | [] => .absent
  | n :: ns =>
    match lookupNode id n with
    | .found p => .found (0 :: p)
    | .beyond => .beyond
    | .absent => (lookupList id ns).shift
end

/-- The node at a path. -/
def nodeAt : List Nat → List Node → Option Node
  | [], _ => none
  | [i], ns => ns[i]?
  | i :: j :: p, ns =>
    match ns[i]? with
    | some (.element _ _ cs) => nodeAt (j :: p) cs
    | _ => none

/-- The tree with the children of the element at a path replaced. -/
def replaceChildren (new : List Node) : List Nat → List Node → List Node
  | [], ns => ns
  | i :: p, ns =>
    match ns[i]? with
    | some (.element name attrs cs) =>
      ns.set i (.element name attrs (match p with
        | [] => new
        | _ :: _ => replaceChildren new p cs))
    | _ => ns

/-- Name and attributes of a node, without its content. -/
def Node.shallow : Node → Option (String × List (String × String))
  | .element name attrs _ => some (name, attrs)
  | _ => none

mutual
/-- Concatenated data of the text nodes below a node (`textContent`). -/
def Node.textContent : Node → Option String
  | .text d => some d
  | .element _ _ cs => textContentList cs
  | .beyond _ => none
/-- Concatenated text of a list of siblings. -/
def textContentList : List Node → Option String
  | [] => some ""
  | n :: ns =>
    match n.textContent, textContentList ns with
    | some a, some b => some (a ++ b)
    | _, _ => none
end

/-! ## Reading and writing HTML markup -/

namespace HTML

/-- Tokens of the modelled part of HTML. -/
inductive Token where
  | character (c : Char)
  | startTag (name : String)
  | endTag (name : String)
deriving DecidableEq

/-- The states of the HTML tokenizer that are modelled. -/
inductive TokenizerState where
  | data
  | tagOpen
  | endTagOpen
  | tagName (closing : Bool) (name : List Char)
  | characterReference
deriving DecidableEq

/-- Newline normalisation of the input stream: CR LF and a lone CR become LF. -/
def normalizeNewlines : List Char → List Char
  | [] => []
  | c :: cs =>
    if c = '\r' then
      match cs with
      | d :: ds => if d = '\n' then '\n' :: normalizeNewlines ds else '\n' :: normalizeNewlines (d :: ds)
      | [] => ['\n']
    else c :: normalizeNewlines cs

/-- Element names whose start and end tags, written without attributes, are
read by the model: the tree builder inserts such an element and does nothing
else. -/
def phrasingNames : List String :=
  ["b", "i", "u", "em", "strong", "small", "span"]

/-- Elements taken as the context of a fragment: for these the tokenizer
starts in the data state and the tree builder in the "in body" mode. -/
def flowContainers : List String :=
  ["div", "span", "p", "pre", "h1", "h2", "h3", "h4", "h5", "h6", "li", "td", "th",
   "b", "i", "em", "strong", "body"]

/-- One character read in the data state: the next state and the tokens that
reach the tree.  A NUL character token is dropped by the tree builder. -/
def dataStep (c : Char) : TokenizerState × List Token :=
  if c = '<' then (.tagOpen, [])
  else if c = '&' then (.characterReference, [])
  else if c = Char.ofNat 0 then (.data, [])
  else (.data, [.character c])

/-- One character read in a tokenizer state: the next state and the tokens
emitted.  `none` stands for markup outside the part of HTML that is modelled
(comments, attributes, character references, elements other than
`phrasingNames`). -/
def step : TokenizerState → Char → Option (TokenizerState × List Token)
  | .data, c => some (dataStep c)
  | .tagOpen, c =>
    if c = '!' ∨ c = '?' then none
    else if c = '/' then some (.endTagOpen, [])
    else if c.isAlpha then some (.tagName false [c.toLower], [])
    else some ((dataStep c).1, .character '<' :: (dataStep c).2)
  | .endTagOpen, c =>
    if c.isAlpha then some (.tagName true [c.toLower], [])
    else if c = '>' then some (.data, [])
    else none
  | .tagName closing name, c =>
    if c = '>' then
      if String.mk name ∈ phrasingNames then
        some (.data, [if closing then .endTag (String.mk name) else .startTag (String.mk name)])
      else none
    else if c.isWhitespace ∨ c = '/' ∨ c = Char.ofNat 0 then none
    else some (.tagName closing (name ++ [c.toLower]), [])
  | .characterReference, c =>
    if c.isAlphanum ∨ c = '#' then none
    else some ((dataStep c).1, .character '&' :: (dataStep c).2)

/-- Tokens emitted when the input ends in a tokenizer state. -/
def atEnd : TokenizerState → List Token
  | .data => []
  | .tagOpen => [.character '<']
  | .endTagOpen => [.character '<', .character '/']
  | .tagName _ _ => []
  | .characterReference => [.character '&']

/-- Tokens of the characters read from a state. -/
def tokenize : TokenizerState → List Char → Option (List Token)
  | st, [] => some (atEnd st)
  | st, c :: cs =>
    match step st c with
    | none => none
    | some (st', out) =>
      match tokenize st' cs with
      | none => none
      | some rest => some (out ++ rest)

/-- A character inserted after the nodes collected so far (latest first): it
is appended to a text node that comes right before, or starts a new one. -/
def pushChar (c : Char) : List Node → List Node
  | .text d :: ns => .text (d.push c) :: ns
  | ns => .text (String.singleton c) :: ns

/-- The elements still open at the end of the input are closed, innermost
first; `cur` holds the children of the innermost, latest first. -/
def closeAll : List (String × List Node) → List Node → List Node
  | [], cur => cur.reverse
  | (name, saved) :: stack, cur => closeAll stack (.element name [] cur.reverse :: saved)

/-- Tree construction for the modelled tokens.  `stack` holds the open
elements, innermost first, each with the siblings that precede it (latest
first).  An end tag that does not close the innermost open element is outside
the model. -/
def build : List Token → List (String × List Node) → List Node → Option (List Node)
  | [], stack, cur => some (closeAll stack cur)
  | .character c :: ts, stack, cur => build ts stack (pushChar c cur)
  | .startTag n :: ts, stack, cur => build ts ((n, cur) :: stack) []
  | .endTag n :: ts, (m, saved) :: stack, cur =>
    if m = n then build ts stack (.element n [] cur.reverse :: saved) else none
  | .endTag _ :: _, [], _ => none

/-- The nodes the HTML fragment parser makes of `markup` for a context element
named `context`; `none` when the context or the markup is outside the modelled
part of HTML. -/
def parseFragment (context : String) (markup : String) : Option (List Node) :=
  if context ∈ flowContainers then
    match tokenize .data (normalizeNewlines markup.toList) with
    | none => none
    | some ts => build ts [] []
  else none

/-- The children that assigning `markup` to `innerHTML` gives an element. -/
def fragment (context : String) (markup : String) : List Node :=
  match parseFragment context markup with
  | some ns => ns
  | none => [Node.beyond markup]

/-- Characters that the tokenizer does not pass through as text. -/
def isMarkupChar (c : Char) : Bool :=
  c = '<' || c = '&' || c = '\r' || c = Char.ofNat 0

/-- Escaping of text in the serialisation of a fragment. -/
def escapeText : List Char → List Char
  | [] => []
  | c :: cs =>
    (if c = '&' then "&amp;".toList
     else if c = '<' then "&lt;".toList
     else if c = '>' then "&gt;".toList
     else if c = Char.ofNat 160 then "&nbsp;".toList
     else [c]) ++ escapeText cs

/-- Characters that the serialisation of text replaces. -/
def isEscapedChar (c : Char) : Bool :=
  c = '&' || c = '<' || c = '>' || c = Char.ofNat 160

mutual
/-- Serialisation of a node as HTML, for text and for the elements of
`phrasingNames` without attributes; `none` otherwise. -/
def serializeNode : Node → Option String
  | .text d => some (String.mk (escapeText d.toList))
  | .element name attrs cs =>
    if attrs.isEmpty ∧ name ∈ phrasingNames then
      match serializeList cs with
      | some inner => some ("<" ++ name ++ ">" ++ inner ++ "</" ++ name ++ ">")
      | none => none
    else none
  | .beyond _ => none
/-- Serialisation of a list of siblings. -/
def serializeList : List Node → Option String
  | [] => some ""
  | n :: ns =>
    match serializeNode n, serializeList ns with
    | some a, some b => some (a ++ b)
    | _, _ => none
end

end HTML

/-! ## Reading XML markup -/

namespace XML

/-- Outcome of reading a fragment as XML: its nodes, not well formed, or
outside the modelled part of XML. -/
inductive Result where
  | nodes (ns : List Node)
  | notWellFormed
  | beyond

/-- Whether the outcome is "not well formed". -/
def Result.isNotWellFormed : Result → Bool
  | .notWellFormed => true
  | _ => false

/-- Whether the outcome is "outside the model". -/
def Result.isBeyond : Result → Bool
  | .beyond => true
  | _ => false

/-- The states of the modelled XML reader. -/
inductive ReaderState where
  | content
  | tagOpen
  | endTagOpen
  | name (closing : Bool) (chars : List Char)
deriving DecidableEq

/-- Outcome of reading one character. -/
inductive Step where
  | next (st : ReaderState) (out : List HTML.Token)
  | notWellFormed
  | beyond

/-- The production `Char` of XML 1.0. -/
def isChar (c : Char) : Bool :=
  c.toNat = 9 || c.toNat = 10 || c.toNat = 13 || (32 ≤ c.toNat && c.toNat ≤ 55295) ||
    (57344 ≤ c.toNat && c.toNat ≤ 65533) || 65536 ≤ c.toNat

/-- One character read.  Modelled are character data without `&` and `]`, and
start and end tags that consist of an ASCII name; a character that is not a
`Char` makes the fragment not well formed. -/
def step : ReaderState → Char → Step
  | .content, c =>
    if c = '<' then .next .tagOpen []
    else if c = '&' ∨ c = ']' then .beyond
    else if isChar c then .next .content [.character c]
    else .notWellFormed
  | .tagOpen, c =>
    if c.isAlpha then .next (.name false [c])  []
    else if c = '/' then .next .endTagOpen []
    else .beyond
  | .endTagOpen, c =>
    if c.isAlpha then .next (.name true [c]) [] else .beyond
  | .name closing chars, c =>
    if c.isAlphanum then .next (.name closing (chars ++ [c])) []
    else if c = '>' then
      .next .content [if closing then .endTag (String.mk chars) else .startTag (String.mk chars)]
    else .beyond

/-- Tokens of the characters read from a state: `some none` is not well
formed, `none` is outside the model.  Input that ends inside a tag is not
well formed. -/
def tokenize : ReaderState → List Char → Option (Option (List HTML.Token))
  | .content, [] => some (some [])
  | _, [] => some none
  | st, c :: cs =>
    match step st c with
    | .beyond => none
    | .notWellFormed => some none
    | .next st' out =>
      match tokenize st' cs with
      | none => none
      | some none => some none
      | some (some rest) => some (some (out ++ rest))

/-- Tree construction: an end tag must close the innermost open element, and
no element may be open at the end; `none` is not well formed. -/
def build : List HTML.Token → List (String × List Node) → List Node → Option (List Node)
  | [], [], cur => some cur.reverse
  | [], _ :: _, _ => none
  | .character c :: ts, stack, cur => build ts stack (HTML.pushChar c cur)
  | .startTag n :: ts, stack, cur => build ts ((n, cur) :: stack) []
  | .endTag n :: ts, (m, saved) :: stack, cur =>
    if m = n then build ts stack (.element n [] cur.reverse :: saved) else none
  | .endTag _ :: _, [], _ => none

/-- The XML fragment parsing of `markup`. -/
def parseFragment (markup : String) : Result :=
  match tokenize .content (HTML.normalizeNewlines markup.toList) with
  | none => .beyond
  | some none => .notWellFormed
  | some (some ts) =>
    match build ts [] [] with
    | none => .notWellFormed
    | some ns => .nodes ns

end XML

/-! ## Resolving a URL -/

namespace URL

/-- Whether the URL parser, run on `input` against the base URL of the
document, returns a URL (`some true`) or failure (`some false`); `none` for
input outside the model.  Modelled are: a path-absolute input (a `/` not
followed by `/` or `\`, without tab, LF or CR), which resolves unless the base
URL has an opaque path; and `http://` and `https://`, which fail for want of
a host. -/
def resolves (baseOpaque : Bool) (input : String) : Option Bool :=
  if input = "http://" ∨ input = "https://" then some false
  else
    match input.toList with
    | '/' :: rest =>
      if rest.any (fun c => c = '\t' || c = '\n' || c = '\r') then none
      else
        match rest with
        | c :: _ => if c = '/' ∨ c = '\\' then none else some (!baseOpaque)
        | [] => some (!baseOpaque)
    | _ => none

end URL

/-! ## The document -/

/-- Exceptions the modelled host operations throw. -/
inductive JsError where
  | typeError
  | invalidStateError
  | syntaxError
deriving DecidableEq

/-- The page: whether it is an XML document (XHTML served as XML) or an HTML
document, whether its base URL has an opaque path (as `about:blank` has), and
its tree. -/
structure Document where
  isXML : Bool
  baseOpaque : Bool
  children : List Node

/-- Method `document.getElementById`. -/
def getElementById (id : String) (d : Document) : Lookup :=
  lookupList id d.children

/-- The `innerHTML` setter on the element at a path: the children of the
element are replaced by the nodes parsed from the markup.  In an XML document
markup that is not well formed throws a `SyntaxError` and changes nothing.
`none`: the path is not that of an element, or the XML markup is outside the
model. -/
def Document.setInnerHTML (p : List Nat) (markup : String) (d : Document) :
    Option (Except JsError Document) :=
  match nodeAt p d.children with
  | some (.element name _ _) =>
    if d.isXML then
      match XML.parseFragment markup with
      | .beyond => none
      | .notWellFormed => some (.error .syntaxError)
      | .nodes ns => some (.ok { d with children := replaceChildren ns p d.children })
    else
      some (.ok { d with children := replaceChildren (HTML.fragment name markup) p d.children })
  | _ => none

/-- The `innerHTML` getter of the element with the given id in an HTML
document: the serialisation of its children. -/
def Document.innerHTML (id : String) (d : Document) : Option String :=
  if d.isXML then none
  else
    match getElementById id d with
    | .found p =>
      match nodeAt p d.children with
      | some (.element name _ cs) =>
        if name ∈ HTML.flowContainers then HTML.serializeList cs else none
      | _ => none
    | _ => none

/-- The `textContent` of the element with the given id. -/
def Document.textContent (id : String) (d : Document) : Option String :=
  match getElementById id d with
  | .found p => (nodeAt p d.children).bind Node.textContent
  | _ => none

/-! ## Request objects and the browser state -/

/-- The function expressions of the script that are registered as handlers. -/
inductive Handler where
  | commonCall_onreadystatechange
deriving DecidableEq

/-- An `XMLHttpRequest` object. -/
structure XMLHttpRequest where
  onreadystatechange : Option Handler
  readyState : Nat
  status : Nat
  responseText : String
  requestMethod : String
  requestURL : String
  asyncFlag : Bool
  sendFlag : Bool
deriving DecidableEq

/-- A freshly constructed request object (state UNSENT). -/
def XMLHttpRequest.fresh : XMLHttpRequest :=
  { onreadystatechange := none, readyState := 0, status := 0, responseText := "",
    requestMethod := "", requestURL := "", asyncFlag := true, sendFlag := false }

/-- Calls of the script into the host. -/
inductive HostCall where
  | construct (xhr : Nat)
  | xhrOpen (xhr : Nat) (method url : String) (async : Bool)
  | xhrSend (xhr : Nat) (body : Option String)
  | setInnerHTML (element : List Nat) (markup : String)
deriving DecidableEq

/-- The state the script runs in. -/
structure Browser where
  document : Document
  xhrs : List XMLHttpRequest
  calls : List HostCall
  reported : List JsError

/-- How a run of script code ends, with the state reached. -/
inductive Completion where
  | normal (s : Browser)
  | throws (e : JsError) (s : Browser)

/-- The state a completion ends in. -/
def Completion.state : Completion → Browser
  | .normal s => s
  | .throws _ s => s

/-- Assignment `element.innerHTML = markup` for the element at path `p`. -/
def Browser.setInnerHTML (p : List Nat) (markup : String) (s : Browser) : Option Completion :=
  match s.document.setInnerHTML p markup with
  | none => none
  | some (.error e) =>
    some (.throws e { s with calls := s.calls ++ [HostCall.setInnerHTML p markup] })
  | some (.ok d) =>
    some (.normal { s with document := d,
                           calls := s.calls ++ [HostCall.setInnerHTML p markup] })

/-- The handler of lines 4-8, with `this` the request object it is called on:

    if (this.readyState == 4 && this.status == 200) {
        document.getElementById("val").innerHTML = this.responseText;
    }

Assigning a property of `null` throws a `TypeError`. -/
def onreadystatechange (this : XMLHttpRequest) (s : Browser) : Option Completion :=
  if this.readyState == 4 && this.status == 200 then
    match getElementById "val" s.document with
    | .beyond => none
    | .absent => some (.throws .typeError s)
    | .found p => s.setInnerHTML p this.responseText
  else some (.normal s)

/-- Code of a registered handler. -/
def Handler.call : Handler → XMLHttpRequest → Browser → Option Completion
  | .commonCall_onreadystatechange => onreadystatechange

/-- Firing `readystatechange` at request `i`: its handler, if any, runs with
`this` the request; an exception it throws is reported and goes no further. -/
def fireReadyStateChange (i : Nat) (s : Browser) : Option Browser :=
  match s.xhrs[i]? with
  | none => some s
  | some x =>
    match x.onreadystatechange with
    | none => some s
    | some h =>
      match h.call x s with
      | none => none
      | some (.normal s') => some s'
      | some (.throws e s') => some { s' with reported := s'.reported ++ [e] }

/-- Expression `new XMLHttpRequest()`: the new object and the new state. -/
def newXMLHttpRequest (s : Browser) : Nat × Browser :=
  (s.xhrs.length,
   { s with xhrs := s.xhrs ++ [XMLHttpRequest.fresh],
            calls := s.calls ++ [HostCall.construct s.xhrs.length] })

/-- Assignment `xhttp.onreadystatechange = h` (`none`: no such object). -/
def setOnreadystatechange (i : Nat) (h : Handler) (s : Browser) : Option Browser :=
  match s.xhrs[i]? with
  | none => none
  | some x => some { s with xhrs := s.xhrs.set i { x with onreadystatechange := some h } }

/-- Call `xhttp.open(method, url, async)`: a URL that does not parse throws a
`SyntaxError`; otherwise the request is reset and put in state OPENED, and
`readystatechange` fires when the state was another one. -/
def xhrOpen (i : Nat) (method url : String) (async : Bool) (s : Browser) :
    Option Completion :=
  match s.xhrs[i]? with
  | none => none
  | some x =>
    match URL.resolves s.document.baseOpaque url with
    | none => none
    | some false =>
      some (.throws .syntaxError
        { s with calls := s.calls ++ [HostCall.xhrOpen i method url async] })
    | some true =>
      let s1 : Browser :=
        { s with xhrs := s.xhrs.set i { x with readyState := 1, status := 0, responseText := "",
                                               requestMethod := method, requestURL := url,
                                               asyncFlag := async, sendFlag := false },
                 calls := s.calls ++ [HostCall.xhrOpen i method url async] }
      if x.readyState = 1 then some (.normal s1)
      else (fireReadyStateChange i s1).map Completion.normal

/-- Call `xhttp.send(body)`: throws `InvalidStateError` unless the request is
OPENED and not yet sent; otherwise the request goes out. -/
def xhrSend (i : Nat) (body : Option String) (s : Browser) : Option Completion :=
  match s.xhrs[i]? with
  | none => none
  | some x =>
    if x.readyState ≠ 1 ∨ x.sendFlag = true then
      some (.throws .invalidStateError
        { s with calls := s.calls ++ [HostCall.xhrSend i body] })
    else
      some (.normal { s with xhrs := s.xhrs.set i { x with sendFlag := true },
                             calls := s.calls ++ [HostCall.xhrSend i body] })

/-! ## The script -/

/-- Function `commonCall(url)` of lines 1-11. -/
def commonCall (url : String) (s : Browser) : Option Completion :=
  let (xhttp, s1) := newXMLHttpRequest s
  match setOnreadystatechange xhttp Handler.commonCall_onreadystatechange s1 with
  | none => none
  | some s2 =>
    match xhrOpen xhttp "GET" url true s2 with
    | none => none
    | some (.throws e s3) => some (.throws e s3)
    | some (.normal s3) => xhrSend xhttp none s3

/-- Function `up()` of lines 13-16. -/
def up (s : Browser) : Option Completion :=
  commonCall "/up" s

/-- Function `down()` of lines 18-21. -/
def down (s : Browser) : Option Completion :=
  commonCall "/down" s

/-! ## Progress of a request -/

/-- What a request object shows when the host fires `readystatechange`. -/
structure Progress where
  readyState : Nat
  status : Nat
  responseText : String
deriving DecidableEq

/-- A request object updated by the host to show the progress `p`. -/
def XMLHttpRequest.progress (x : XMLHttpRequest) (p : Progress) : XMLHttpRequest :=
  { x with readyState := p.readyState, status := p.status, responseText := p.responseText,
           sendFlag := if p.readyState = 4 then false else x.sendFlag }

/-- The host updates request `i` and fires `readystatechange` at it. -/
def receive (i : Nat) (p : Progress) (s : Browser) : Option Browser :=
  match s.xhrs[i]? with
  | none => some s
  | some x => fireReadyStateChange i { s with xhrs := s.xhrs.set i (x.progress p) }

/-- A sequence of events, each for one request, processed in order. -/
def receiveAll : List (Nat × Progress) → Browser → Option Browser
  | [], s => some s
  | (i, p) :: evs, s =>
    match receive i p s with
    | none => none
    | some s' => receiveAll evs s'

/-- What the events keep of a state: the kind and the base of the document,
the number of request objects and their handlers, and the display target with
its name and attributes. -/
def Browser.keeps (s s' : Browser) : Prop :=
  s'.document.isXML = s.document.isXML ∧
  s'.document.baseOpaque = s.document.baseOpaque ∧
  s'.xhrs.length = s.xhrs.length ∧
  (∀ j : Nat, (s'.xhrs[j]?).map XMLHttpRequest.onreadystatechange
      = (s.xhrs[j]?).map XMLHttpRequest.onreadystatechange) ∧
  (∀ path : List Nat, getElementById "val" s.document = .found path →
    getElementById "val" s'.document = .found path ∧
    (nodeAt path s'.document.children).bind Node.shallow
      = (nodeAt path s.document.children).bind Node.shallow)

/-- Whether a host call is an assignment to `innerHTML`. -/
def HostCall.isWrite : HostCall → Bool
  | .setInnerHTML _ _ => true
  | _ => false

/-- Whether a host call is a call of `send`. -/
def HostCall.isSend : HostCall → Bool
  | .xhrSend _ _ => true
  | _ => false

/-- Number of assignments to `innerHTML` executed so far. -/
def Browser.writes (s : Browser) : Nat :=
  s.calls.countP HostCall.isWrite

/-- Number of calls of `send` made so far; one that returned normally has
issued a request. -/
def Browser.requests (s : Browser) : Nat :=
  s.calls.countP HostCall.isSend

/-- A completion with a network failure: state DONE, status 0, empty body. -/
def Progress.networkError : Progress :=
  { readyState := 4, status := 0, responseText := "" }

/-! ## Sample pages -/

/-- The tree of a page with a heading, the display target and a button. -/
def sampleTree : List Node :=
  [ .element "html" []
      [ .element "body" []
          [ .element "h1" [] [.text "Lamp"],
            .element "p" [("id", "val"), ("class", "state")] [.text "old"],
            .element "button" [("id", "btn"), ("onclick", "up()")] [.text "Up"] ] ] ]

/-- The page as an HTML document. -/
def samplePage : Browser :=
  { document := { isXML := false, baseOpaque := false, children := sampleTree },
    xhrs := [], calls := [], reported := [] }

/-- The page as an XML document. -/
def sampleXhtml : Browser :=
  { document := { isXML := true, baseOpaque := false, children := sampleTree },
    xhrs := [], calls := [], reported := [] }

/-- A page whose display target lies in a `div` and holds a `span`. -/
def nestedPage : Browser :=
  { document :=
      { isXML := false, baseOpaque := false,
        children :=
          [ .element "div" [("id", "box")]
              [ .element "p" [("id", "val")]
                  [.text "old ", .element "span" [("id", "inner")] [.text "x"]],
                .element "em" [("id", "after")] [.text "y"] ] ] },
    xhrs := [], calls := [], reported := [] }

/-- A page without a display target. -/
def bareBrowser : Browser :=
  { document := { isXML := false, baseOpaque := false,
                  children := [ .element "h1" [] [.text "Lamp"] ] },
    xhrs := [], calls := [], reported := [] }

/-- A request object as the handler sees it on a completion with status 200. -/
def sampleDone (body : String) : XMLHttpRequest :=
  { onreadystatechange := some Handler.commonCall_onreadystatechange,
    readyState := 4, status := 200, responseText := body, requestMethod := "GET",
    requestURL := "/up", asyncFlag := true, sendFlag := false }

/-! ## Lemmas on the tree -/

theorem lookupList_ne_found_nil (id : String) (ns : List Node) :
    lookupList id ns ≠ .found [] := by
  induction ns with
  | nil => simp [lookupList]
  | cons n ns ih =>
    rw [lookupList]
    cases hn : lookupNode id n with
    | found p => simp
    | beyond => simp
    | absent =>
      simp only
      cases hl : lookupList id ns with
      | found q =>
        cases q with
        | nil => exact absurd hl ih
        | cons i q => simp [Lookup.shift]
      | absent => simp [Lookup.shift]
      | beyond => simp [Lookup.shift]

/-- What a successful search among siblings says: the element lies in the
sibling at position `i`, and no earlier sibling holds one. -/
theorem lookupList_found {id : String} {ns : List Node} {i : Nat} {q : List Nat}
    (h : lookupList id ns = .found (i :: q)) :
    ∃ n, ns[i]? = some n ∧ lookupNode id n = .found q ∧
      ∀ j m, j < i → ns[j]? = some m → lookupNode id m = .absent := by
  induction ns generalizing i with
  | nil => simp [lookupList] at h
  | cons n ns ih =>
    rw [lookupList] at h
    cases hn : lookupNode id n with
    | found p =>
      simp only [hn, Lookup.found.injEq, List.cons.injEq] at h
      obtain ⟨hi, hq⟩ := h
      subst hi hq
      exact ⟨n, by simp, hn, fun j m hj _ => absurd hj (Nat.not_lt_zero j)⟩
    | beyond => simp [hn] at h
    | absent =>
      simp only [hn] at h
      cases hl : lookupList id ns with
      | absent => simp [hl, Lookup.shift] at h
      | beyond => simp [hl, Lookup.shift] at h
      | found r =>
        cases r with
        | nil => exact absurd hl (lookupList_ne_found_nil id ns)
        | cons k r =>
          simp only [hl, Lookup.shift, Lookup.found.injEq, List.cons.injEq] at h
          obtain ⟨hi, hq⟩ := h
          subst hi hq
          obtain ⟨n', hn', hl', hb⟩ := ih hl
          refine ⟨n', by simpa using hn', hl', ?_⟩
          intro j m hj hm
          cases j with
          | zero =>
            simp only [List.getElem?_cons_zero, Option.some.injEq] at hm
            subst hm
            exact hn
          | succ j =>
            simp only [List.getElem?_cons_succ] at hm
            exact hb j m (by omega) hm

theorem lookupList_of_found {id : String} {ns : List Node} {i : Nat} {q : List Nat} {n : Node}
    (hn : ns[i]? = some n) (hl : lookupNode id n = .found q)
    (hb : ∀ j m, j < i → ns[j]? = some m → lookupNode id m = .absent) :
    lookupList id ns = .found (i :: q) := by
  induction ns generalizing i with
  | nil => simp at hn
  | cons a ns ih =>
    rw [lookupList]
    cases i with
    | zero =>
      simp only [List.getElem?_cons_zero, Option.some.injEq] at hn
      subst hn
      simp [hl]
    | succ i =>
      have ha : lookupNode id a = .absent := hb 0 a (by omega) (by simp)
      simp only [List.getElem?_cons_succ] at hn
      have := ih hn (fun j m hj hm => hb (j + 1) m (by omega) (by simpa using hm))
      simp [ha, this, Lookup.shift]

theorem lookupNode_found {id : String} {n : Node} {q : List Nat}
    (h : lookupNode id n = .found q) :
    ∃ name attrs cs, n = .element name attrs cs ∧
      ((attrs.lookup "id" = some id ∧ q = []) ∨
       (attrs.lookup "id" ≠ some id ∧ lookupList id cs = .found q)) := by
  cases n with
  | text d => simp [lookupNode] at h
  | beyond m => simp [lookupNode] at h
  | element name attrs cs =>
    refine ⟨name, attrs, cs, rfl, ?_⟩
    rw [lookupNode] at h
    by_cases hid : attrs.lookup "id" = some id
    · simp only [hid, if_true, Lookup.found.injEq] at h
      exact Or.inl ⟨hid, h.symm⟩
    · simp only [hid, if_false] at h
      exact Or.inr ⟨hid, h⟩

/-- The element a search finds stays the one found when its children are
replaced. -/
theorem lookupList_replaceChildren {id : String} (new : List Node) {p : List Nat}
    {ns : List Node} (h : lookupList id ns = .found p) :
    lookupList id (replaceChildren new p ns) = .found p := by
  induction p generalizing ns with
  | nil => exact absurd h (lookupList_ne_found_nil id ns)
  | cons i q ih =>
    obtain ⟨n, hn, hl, hb⟩ := lookupList_found h
    obtain ⟨name, attrs, cs, rfl, hcase⟩ := lookupNode_found hl
    have hi : i < ns.length := (List.getElem?_eq_some.1 hn).1
    rw [replaceChildren, hn]
    refine lookupList_of_found (List.getElem?_set_self hi) ?_ ?_
    · rcases hcase with ⟨hid, rfl⟩ | ⟨hid, hq⟩
      · simp [lookupNode, hid]
      · cases q with
        | nil => exact absurd hq (lookupList_ne_found_nil id cs)
        | cons j r =>
          simp only [lookupNode, hid, if_false]
          exact ih hq
    · intro j m hj hm
      rw [List.getElem?_set_ne (by omega)] at hm
      exact hb j m hj hm

/-- The path a search returns is that of an element carrying the id. -/
theorem nodeAt_of_lookup {id : String} {p : List Nat} {ns : List Node}
    (h : lookupList id ns = .found p) :
    ∃ name attrs cs, nodeAt p ns = some (.element name attrs cs) ∧
      attrs.lookup "id" = some id := by
  induction p generalizing ns with
  | nil => exact absurd h (lookupList_ne_found_nil id ns)
  | cons i q ih =>
    obtain ⟨n, hn, hl, -⟩ := lookupList_found h
    obtain ⟨name, attrs, cs, rfl, hcase⟩ := lookupNode_found hl
    rcases hcase with ⟨hid, rfl⟩ | ⟨hid, hq⟩
    · exact ⟨name, attrs, cs, by simp [nodeAt, hn], hid⟩
    · cases q with
      | nil => exact absurd hq (lookupList_ne_found_nil id cs)
      | cons j r =>
        obtain ⟨name', attrs', cs', h', hid'⟩ := ih hq
        exact ⟨name', attrs', cs', by simp [nodeAt, hn, h'], hid'⟩

theorem nodeAt_replaceChildren_self (new : List Node) {p : List Nat} {ns : List Node}
    {name : String} {attrs : List (String × String)} {cs : List Node}
    (h : nodeAt p ns = some (.element name attrs cs)) :
    nodeAt p (replaceChildren new p ns) = some (.element name attrs new) := by
  induction p generalizing ns with
  | nil => simp [nodeAt] at h
  | cons i q ih =>
    cases q with
    | nil =>
      simp only [nodeAt] at h
      have hi : i < ns.length := (List.getElem?_eq_some.1 h).1
      simp [replaceChildren, h, nodeAt, List.getElem?_set_self hi]
    | cons j r =>
      simp only [nodeAt] at h
      cases hn : ns[i]? with
      | none => simp [hn] at h
      | some n =>
        cases n with
        | text d => simp [hn] at h
        | beyond m => simp [hn] at h
        | element name' attrs' cs' =>
          simp only [hn] at h
          have hi : i < ns.length := (List.getElem?_eq_some.1 hn).1
          simp only [replaceChildren, hn, nodeAt, List.getElem?_set_self hi]
          exact ih h


theorem nodeAt_congr {k : Nat} (q : List Nat) {ns ms : List Node} (h : ns[k]? = ms[k]?) :
    nodeAt (k :: q) ns = nodeAt (k :: q) ms := by
  cases q with
  | nil => simpa [nodeAt] using h
  | cons j r => simp [nodeAt, h]

/-- Replacing the children of the element at `p` leaves the node at every
path that neither leads to `p` nor lies below it. -/
theorem nodeAt_replaceChildren_apart (new : List Node) {p q : List Nat} (ns : List Node)
    (hpq : ¬ p <+: q) (hqp : ¬ q <+: p) :
    nodeAt q (replaceChildren new p ns) = nodeAt q ns := by
  induction p generalizing q ns with
  | nil => exact absurd (List.nil_prefix) hpq
  | cons i p ih =>
    cases q with
    | nil => exact absurd (List.nil_prefix) hqp
    | cons k q =>
      rw [replaceChildren]
      cases hn : ns[i]? with
      | none => rfl
      | some n =>
        cases n with
        | text d => rfl
        | beyond m => rfl
        | element name attrs cs =>
          simp only
          by_cases hki : k = i
          · subst hki
            have hpq' : ¬ p <+: q := fun h => hpq ((List.cons_prefix_cons).2 ⟨rfl, h⟩)
            have hqp' : ¬ q <+: p := fun h => hqp ((List.cons_prefix_cons).2 ⟨rfl, h⟩)
            have hi : k < ns.length := (List.getElem?_eq_some.1 hn).1
            cases q with
            | nil => exact absurd (List.nil_prefix) hqp'
            | cons j r =>
              cases p with
              | nil => exact absurd (List.nil_prefix) hpq'
              | cons a b =>
                simp only [nodeAt, List.getElem?_set_self hi, hn]
                exact ih cs hpq' hqp'
          · exact nodeAt_congr q (List.getElem?_set_ne (fun h => hki h.symm))

/-- Replacing the children of the element at `p` leaves the name and the
attributes of that element and of every element that encloses it. -/
theorem shallow_replaceChildren (new : List Node) {p q : List Nat} (ns : List Node)
    (hqp : q <+: p) :
    (nodeAt q (replaceChildren new p ns)).bind Node.shallow
      = (nodeAt q ns).bind Node.shallow := by
  induction p generalizing q ns with
  | nil =>
    have : q = [] := List.prefix_nil.1 hqp
    subst this
    rfl
  | cons i p ih =>
    cases q with
    | nil => rfl
    | cons k q =>
      obtain ⟨hki, hq⟩ := (List.cons_prefix_cons).1 hqp
      subst hki
      rw [replaceChildren]
      cases hn : ns[k]? with
      | none => rfl
      | some n =>
        cases n with
        | text d => rfl
        | beyond m => rfl
        | element name attrs cs =>
          simp only
          have hi : k < ns.length := (List.getElem?_eq_some.1 hn).1
          cases q with
          | nil => simp [nodeAt, List.getElem?_set_self hi, hn, Node.shallow]
          | cons j r =>
            cases p with
            | nil => simp at hq
            | cons a b =>
              simp only [nodeAt, List.getElem?_set_self hi, hn]
              exact ih cs hq

/-! ## Lemmas on the `innerHTML` setter -/

theorem Document.setInnerHTML_html {d : Document} {p : List Nat} {name : String}
    {attrs : List (String × String)} {cs : List Node} (markup : String)
    (hx : d.isXML = false) (hn : nodeAt p d.children = some (.element name attrs cs)) :
    d.setInnerHTML p markup
      = some (.ok { d with children := replaceChildren (HTML.fragment name markup) p d.children }) := by
  simp [Document.setInnerHTML, hn, hx]

/-- A setter that returns has replaced the children of the element, and
nothing else of the document. -/
theorem Document.setInnerHTML_ok {d d' : Document} {p : List Nat} {markup : String}
    (h : d.setInnerHTML p markup = some (.ok d')) :
    ∃ ns, d' = { d with children := replaceChildren ns p d.children } := by
  unfold Document.setInnerHTML at h
  split at h
  · split at h
    · split at h
      · simp at h
      · simp at h
      · rename_i ns _
        simp only [Option.some.injEq, Except.ok.injEq] at h
        exact ⟨ns, h.symm⟩
    · simp only [Option.some.injEq, Except.ok.injEq] at h
      exact ⟨_, h.symm⟩
  · simp at h

/-- A setter that throws does so in an XML document, with a `SyntaxError`, on
markup that is not well formed. -/
theorem Document.setInnerHTML_error {d : Document} {p : List Nat} {markup : String}
    {e : JsError} (h : d.setInnerHTML p markup = some (.error e)) :
    e = .syntaxError ∧ d.isXML = true ∧ (XML.parseFragment markup).isNotWellFormed = true := by
  unfold Document.setInnerHTML at h
  split at h
  · split at h
    · rename_i hx
      split at h
      · simp at h
      · rename_i hp
        simp only [Option.some.injEq, Except.error.injEq] at h
        exact ⟨h.symm, hx, by rw [hp]; rfl⟩
      · simp at h
    · simp at h
  · simp at h


theorem Document.setInnerHTML_none {d : Document} {p : List Nat} {markup : String}
    {name : String} {attrs : List (String × String)} {cs : List Node}
    (hn : nodeAt p d.children = some (.element name attrs cs))
    (h : d.setInnerHTML p markup = none) :
    d.isXML = true ∧ (XML.parseFragment markup).isBeyond = true := by
  unfold Document.setInnerHTML at h
  rw [hn] at h
  simp only at h
  split at h
  · rename_i hx
    split at h
    · rename_i hp
      exact ⟨hx, by rw [hp]; rfl⟩
    · simp at h
    · simp at h
  · simp at h

/-! ## Lemmas on the handler and on event delivery -/

theorem onreadystatechange_skip {this : XMLHttpRequest} {s : Browser}
    (h : ¬ (this.readyState = 4 ∧ this.status = 200)) :
    onreadystatechange this s = some (.normal s) := by
  simp only [onreadystatechange]
  split
  · rename_i hc
    simp only [Bool.and_eq_true, beq_iff_eq] at hc
    exact absurd hc h
  · rfl

theorem onreadystatechange_missing {this : XMLHttpRequest} {s : Browser}
    (hr : this.readyState = 4) (hs : this.status = 200)
    (hk : getElementById "val" s.document = .absent) :
    onreadystatechange this s = some (.throws .typeError s) := by
  simp [onreadystatechange, hr, hs, hk]

theorem onreadystatechange_beyond {this : XMLHttpRequest} {s : Browser}
    (hr : this.readyState = 4) (hs : this.status = 200)
    (hk : getElementById "val" s.document = .beyond) :
    onreadystatechange this s = none := by
  simp [onreadystatechange, hr, hs, hk]

/-- On a completion with status 200 the handler is the assignment of the
response text to the `innerHTML` of the element found. -/
theorem onreadystatechange_found {this : XMLHttpRequest} {s : Browser} {path : List Nat}
    (hr : this.readyState = 4) (hs : this.status = 200)
    (hk : getElementById "val" s.document = .found path) :
    onreadystatechange this s = s.setInnerHTML path this.responseText := by
  simp [onreadystatechange, hr, hs, hk]

theorem receive_none {i : Nat} {s : Browser} (p : Progress) (h : s.xhrs[i]? = none) :
    receive i p s = some s := by
  simp [receive, h]

theorem receive_skip (i : Nat) (s : Browser) {p : Progress}
    (h : ¬ (p.readyState = 4 ∧ p.status = 200)) :
    ∃ s', receive i p s = some s' ∧ s'.document = s.document ∧ s'.calls = s.calls ∧
      s'.reported = s.reported ∧
      s'.xhrs = (match s.xhrs[i]? with
        | none => s.xhrs
        | some x => s.xhrs.set i (x.progress p)) := by
  unfold receive
  cases hx : s.xhrs[i]? with
  | none => exact ⟨s, rfl, rfl, rfl, rfl, rfl⟩
  | some x =>
    have hi : i < s.xhrs.length := (List.getElem?_eq_some.1 hx).1
    simp only [fireReadyStateChange, List.getElem?_set_self hi]
    cases hh : x.onreadystatechange with
    | none =>
      have : (x.progress p).onreadystatechange = none := hh
      simp only [this]
      exact ⟨_, rfl, rfl, rfl, rfl, rfl⟩
    | some f =>
      cases f
      have : (x.progress p).onreadystatechange
          = some Handler.commonCall_onreadystatechange := hh
      simp only [this, Handler.call]
      rw [onreadystatechange_skip (by simpa [XMLHttpRequest.progress] using h)]
      exact ⟨_, rfl, rfl, rfl, rfl, rfl⟩

theorem receive_done_ok {i : Nat} {path : List Nat} {s : Browser} {x : XMLHttpRequest}
    {p : Progress} {d : Document}
    (hx : s.xhrs[i]? = some x)
    (hh : x.onreadystatechange = some Handler.commonCall_onreadystatechange)
    (hr : p.readyState = 4) (hs : p.status = 200)
    (hk : getElementById "val" s.document = .found path)
    (hd : s.document.setInnerHTML path p.responseText = some (.ok d)) :
    ∃ s', receive i p s = some s' ∧ s'.document = d ∧
      s'.calls = s.calls ++ [HostCall.setInnerHTML path p.responseText] ∧
      s'.reported = s.reported ∧ s'.xhrs = s.xhrs.set i (x.progress p) := by
  have hi : i < s.xhrs.length := (List.getElem?_eq_some.1 hx).1
  simp [receive, hx, fireReadyStateChange, List.getElem?_set_self hi, hh, Handler.call,
    onreadystatechange, hr, hs, hk, Browser.setInnerHTML, hd, XMLHttpRequest.progress]

theorem receive_done_error {i : Nat} {path : List Nat} {s : Browser} {x : XMLHttpRequest}
    {p : Progress} {e : JsError}
    (hx : s.xhrs[i]? = some x)
    (hh : x.onreadystatechange = some Handler.commonCall_onreadystatechange)
    (hr : p.readyState = 4) (hs : p.status = 200)
    (hk : getElementById "val" s.document = .found path)
    (hd : s.document.setInnerHTML path p.responseText = some (.error e)) :
    ∃ s', receive i p s = some s' ∧ s'.document = s.document ∧
      s'.calls = s.calls ++ [HostCall.setInnerHTML path p.responseText] ∧
      s'.reported = s.reported ++ [e] ∧ s'.xhrs = s.xhrs.set i (x.progress p) := by
  have hi : i < s.xhrs.length := (List.getElem?_eq_some.1 hx).1
  simp [receive, hx, fireReadyStateChange, List.getElem?_set_self hi, hh, Handler.call,
    onreadystatechange, hr, hs, hk, Browser.setInnerHTML, hd, XMLHttpRequest.progress]

theorem receive_done_none {i : Nat} {path : List Nat} {s : Browser} {x : XMLHttpRequest}
    {p : Progress}
    (hx : s.xhrs[i]? = some x)
    (hh : x.onreadystatechange = some Handler.commonCall_onreadystatechange)
    (hr : p.readyState = 4) (hs : p.status = 200)
    (hk : getElementById "val" s.document = .found path)
    (hd : s.document.setInnerHTML path p.responseText = none) :
    receive i p s = none := by
  have hi : i < s.xhrs.length := (List.getElem?_eq_some.1 hx).1
  simp [receive, hx, fireReadyStateChange, List.getElem?_set_self hi, hh, Handler.call,
    onreadystatechange, hr, hs, hk, Browser.setInnerHTML, hd, XMLHttpRequest.progress]

theorem receive_missing {i : Nat} {s : Browser} {x : XMLHttpRequest} {p : Progress}
    (hx : s.xhrs[i]? = some x)
    (hh : x.onreadystatechange = some Handler.commonCall_onreadystatechange)
    (hr : p.readyState = 4) (hs : p.status = 200)
    (hk : getElementById "val" s.document = .absent) :
    ∃ s', receive i p s = some s' ∧ s'.document = s.document ∧ s'.calls = s.calls ∧
      s'.reported = s.reported ++ [JsError.typeError] ∧
      s'.xhrs = s.xhrs.set i (x.progress p) := by
  have hi : i < s.xhrs.length := (List.getElem?_eq_some.1 hx).1
  simp [receive, hx, fireReadyStateChange, List.getElem?_set_self hi, hh, Handler.call,
    onreadystatechange, hr, hs, hk, XMLHttpRequest.progress]

theorem receive_beyond {i : Nat} {s : Browser} {x : XMLHttpRequest} {p : Progress}
    (hx : s.xhrs[i]? = some x)
    (hh : x.onreadystatechange = some Handler.commonCall_onreadystatechange)
    (hr : p.readyState = 4) (hs : p.status = 200)
    (hk : getElementById "val" s.document = .beyond) :
    receive i p s = none := by
  have hi : i < s.xhrs.length := (List.getElem?_eq_some.1 hx).1
  simp [receive, hx, fireReadyStateChange, List.getElem?_set_self hi, hh, Handler.call,
    onreadystatechange, hr, hs, hk, XMLHttpRequest.progress]

theorem receive_no_handler {i : Nat} {s : Browser} {x : XMLHttpRequest} (p : Progress)
    (hx : s.xhrs[i]? = some x) (hh : x.onreadystatechange = none) :
    ∃ s', receive i p s = some s' ∧ s'.document = s.document ∧ s'.calls = s.calls ∧
      s'.reported = s.reported ∧ s'.xhrs = s.xhrs.set i (x.progress p) := by
  have hi : i < s.xhrs.length := (List.getElem?_eq_some.1 hx).1
  simp [receive, hx, fireReadyStateChange, List.getElem?_set_self hi, hh,
    XMLHttpRequest.progress]

/-- An event that is processed changes the document and the call log in one
of two ways: not at all, or by one assignment of the response text to the
`innerHTML` of the element with id "val", which replaces the children of that
element or, when the setter throws, nothing. -/
theorem receive_frame {i : Nat} {p : Progress} {s s' : Browser}
    (h : receive i p s = some s') :
    (s'.document = s.document ∧ s'.calls = s.calls) ∨
    (p.readyState = 4 ∧ p.status = 200 ∧ ∃ path,
      getElementById "val" s.document = .found path ∧
      s'.calls = s.calls ++ [HostCall.setInnerHTML path p.responseText] ∧
      (s'.document = s.document ∨
        ∃ ns, s'.document
          = { s.document with children := replaceChildren ns path s.document.children })) := by
  by_cases hc : p.readyState = 4 ∧ p.status = 200
  · cases hx : s.xhrs[i]? with
    | none =>
      rw [receive_none p hx] at h
      cases h
      exact Or.inl ⟨rfl, rfl⟩
    | some x =>
      cases hh : x.onreadystatechange with
      | none =>
        obtain ⟨t, ht, h1, h2, -, -⟩ := receive_no_handler p hx hh
        rw [ht] at h
        cases h
        exact Or.inl ⟨h1, h2⟩
      | some f =>
        cases f
        cases hk : getElementById "val" s.document with
        | beyond => rw [receive_beyond hx hh hc.1 hc.2 hk] at h; cases h
        | absent =>
          obtain ⟨t, ht, h1, h2, -, -⟩ := receive_missing hx hh hc.1 hc.2 hk
          rw [ht] at h
          cases h
          exact Or.inl ⟨h1, h2⟩
        | found path =>
          right
          refine ⟨hc.1, hc.2, path, rfl, ?_⟩
          cases hd : s.document.setInnerHTML path p.responseText with
          | none => rw [receive_done_none hx hh hc.1 hc.2 hk hd] at h; cases h
          | some r =>
            cases r with
            | error e =>
              obtain ⟨t, ht, h1, h2, -, -⟩ := receive_done_error hx hh hc.1 hc.2 hk hd
              rw [ht] at h
              cases h
              exact ⟨h2, Or.inl h1⟩
            | ok d =>
              obtain ⟨t, ht, h1, h2, -, -⟩ := receive_done_ok hx hh hc.1 hc.2 hk hd
              rw [ht] at h
              cases h
              obtain ⟨ns, hns⟩ := Document.setInnerHTML_ok hd
              exact ⟨h2, Or.inr ⟨ns, h1.trans hns⟩⟩
  · obtain ⟨t, ht, h1, h2, -, -⟩ := receive_skip i s hc
    rw [ht] at h
    cases h
    exact Or.inl ⟨h1, h2⟩


/-- The request objects after an event that is processed. -/
theorem receive_xhrs {i : Nat} {p : Progress} {s s' : Browser}
    (h : receive i p s = some s') :
    s'.xhrs = (match s.xhrs[i]? with
      | none => s.xhrs
      | some x => s.xhrs.set i (x.progress p)) := by
  by_cases hc : p.readyState = 4 ∧ p.status = 200
  · cases hx : s.xhrs[i]? with
    | none =>
      rw [receive_none p hx] at h
      cases h
      rfl
    | some x =>
      simp only
      cases hh : x.onreadystatechange with
      | none =>
        obtain ⟨t, ht, -, -, -, h4⟩ := receive_no_handler p hx hh
        rw [ht] at h
        cases h
        exact h4
      | some f =>
        cases f
        cases hk : getElementById "val" s.document with
        | beyond => rw [receive_beyond hx hh hc.1 hc.2 hk] at h; cases h
        | absent =>
          obtain ⟨t, ht, -, -, -, h4⟩ := receive_missing hx hh hc.1 hc.2 hk
          rw [ht] at h
          cases h
          exact h4
        | found path =>
          cases hd : s.document.setInnerHTML path p.responseText with
          | none => rw [receive_done_none hx hh hc.1 hc.2 hk hd] at h; cases h
          | some r =>
            cases r with
            | error e =>
              obtain ⟨t, ht, -, -, -, h4⟩ := receive_done_error hx hh hc.1 hc.2 hk hd
              rw [ht] at h
              cases h
              exact h4
            | ok d =>
              obtain ⟨t, ht, -, -, -, h4⟩ := receive_done_ok hx hh hc.1 hc.2 hk hd
              rw [ht] at h
              cases h
              exact h4
  · obtain ⟨t, ht, -, -, -, h4⟩ := receive_skip i s hc
    rw [ht] at h
    cases h
    exact h4

theorem Browser.keeps_refl (s : Browser) : s.keeps s :=
  ⟨rfl, rfl, rfl, fun _ => rfl, fun _ h => ⟨h, rfl⟩⟩

theorem Browser.keeps_trans {s t u : Browser} (h1 : s.keeps t) (h2 : t.keeps u) : s.keeps u := by
  obtain ⟨a1, b1, c1, d1, e1⟩ := h1
  obtain ⟨a2, b2, c2, d2, e2⟩ := h2
  refine ⟨a2.trans a1, b2.trans b1, c2.trans c1, fun j => (d2 j).trans (d1 j), ?_⟩
  intro path hp
  obtain ⟨f1, g1⟩ := e1 path hp
  obtain ⟨f2, g2⟩ := e2 path f1
  exact ⟨f2, g2.trans g1⟩

theorem receive_keeps {i : Nat} {p : Progress} {s s' : Browser}
    (h : receive i p s = some s') : s.keeps s' := by
  have hx := receive_xhrs h
  have hlen : s'.xhrs.length = s.xhrs.length := by
    rw [hx]
    cases s.xhrs[i]? <;> simp
  have hhand : ∀ j : Nat, (s'.xhrs[j]?).map XMLHttpRequest.onreadystatechange
      = (s.xhrs[j]?).map XMLHttpRequest.onreadystatechange := by
    intro j
    rw [hx]
    cases hxi : s.xhrs[i]? with
    | none => rfl
    | some x =>
      simp only [List.getElem?_set]
      by_cases hij : i = j
      · subst hij
        have hi : i < s.xhrs.length := (List.getElem?_eq_some.1 hxi).1
        simp [hi, hxi, XMLHttpRequest.progress]
      · simp [hij]
  rcases receive_frame h with ⟨hd, -⟩ | ⟨-, -, path, hk, -, hd | ⟨ns, hd⟩⟩
  · exact ⟨by rw [hd], by rw [hd], hlen, hhand, fun q hq => ⟨by rw [hd]; exact hq, by rw [hd]⟩⟩
  · exact ⟨by rw [hd], by rw [hd], hlen, hhand, fun q hq => ⟨by rw [hd]; exact hq, by rw [hd]⟩⟩
  · refine ⟨by rw [hd], by rw [hd], hlen, hhand, ?_⟩
    intro q hq
    have hqp : q = path := by
      have := hq.symm.trans hk
      exact Lookup.found.inj this
    subst hqp
    rw [hd]
    exact ⟨lookupList_replaceChildren ns hk, shallow_replaceChildren ns _ (List.prefix_refl q)⟩

theorem receiveAll_append (evs evs' : List (Nat × Progress)) (s : Browser) :
    receiveAll (evs ++ evs') s = (receiveAll evs s).bind (receiveAll evs') := by
  induction evs generalizing s with
  | nil => rfl
  | cons e evs ih =>
    obtain ⟨i, p⟩ := e
    simp only [List.cons_append, receiveAll]
    cases receive i p s with
    | none => rfl
    | some s' => exact ih s'

theorem receiveAll_keeps {evs : List (Nat × Progress)} {s s' : Browser}
    (h : receiveAll evs s = some s') : s.keeps s' := by
  induction evs generalizing s with
  | nil =>
    simp only [receiveAll, Option.some.injEq] at h
    subst h
    exact s.keeps_refl
  | cons e evs ih =>
    obtain ⟨i, p⟩ := e
    simp only [receiveAll] at h
    cases hr : receive i p s with
    | none => simp [hr] at h
    | some t =>
      rw [hr] at h
      exact Browser.keeps_trans (receive_keeps hr) (ih h)

/-- Events none of which is a completion are all processed and change neither
the document nor the call log nor the reported errors. -/
theorem receiveAll_skip (evs : List (Nat × Progress)) (s : Browser)
    (h : ∀ e ∈ evs, e.2.readyState ≠ 4) :
    ∃ s', receiveAll evs s = some s' ∧ s'.document = s.document ∧ s'.calls = s.calls ∧
      s'.reported = s.reported := by
  induction evs generalizing s with
  | nil => exact ⟨s, rfl, rfl, rfl, rfl⟩
  | cons e evs ih =>
    obtain ⟨i, p⟩ := e
    have hp : ¬ (p.readyState = 4 ∧ p.status = 200) :=
      fun hc => h (i, p) (List.mem_cons_self _ _) hc.1
    obtain ⟨t, ht, h1, h2, h3, -⟩ := receive_skip i s hp
    obtain ⟨u, hu, g1, g2, g3⟩ := ih t (fun e he => h e (List.mem_cons_of_mem _ he))
    refine ⟨u, ?_, g1.trans h1, g2.trans h2, g3.trans h3⟩
    simp only [receiveAll, ht, hu]

/-- On an HTML page whose display target is found every event is processed. -/
theorem receive_defined {s : Browser} {path : List Nat} (i : Nat) (p : Progress)
    (hx : s.document.isXML = false)
    (hk : getElementById "val" s.document = .found path) :
    ∃ s', receive i p s = some s' := by
  by_cases hc : p.readyState = 4 ∧ p.status = 200
  · cases hxi : s.xhrs[i]? with
    | none => exact ⟨s, receive_none p hxi⟩
    | some x =>
      cases hh : x.onreadystatechange with
      | none =>
        obtain ⟨t, ht, -⟩ := receive_no_handler p hxi hh
        exact ⟨t, ht⟩
      | some f =>
        cases f
        obtain ⟨name, attrs, cs, hn, -⟩ := nodeAt_of_lookup hk
        obtain ⟨t, ht, -⟩ := receive_done_ok hxi hh hc.1 hc.2 hk
          (Document.setInnerHTML_html p.responseText hx hn)
        exact ⟨t, ht⟩
  · obtain ⟨t, ht, -⟩ := receive_skip i s hc
    exact ⟨t, ht⟩

theorem receiveAll_defined {s : Browser} {path : List Nat} (evs : List (Nat × Progress))
    (hx : s.document.isXML = false)
    (hk : getElementById "val" s.document = .found path) :
    ∃ s', receiveAll evs s = some s' := by
  induction evs generalizing s with
  | nil => exact ⟨s, rfl⟩
  | cons e evs ih =>
    obtain ⟨i, p⟩ := e
    obtain ⟨t, ht⟩ := receive_defined i p hx hk
    obtain ⟨a, -, -, -, e1⟩ := receive_keeps ht
    obtain ⟨u, hu⟩ := ih (a.trans hx) (e1 path hk).1
    exact ⟨u, by simp only [receiveAll, ht, hu]⟩


/-! ## Lemmas on `commonCall` -/

theorem commonCall_normal {url : String} {s : Browser}
    (h : URL.resolves s.document.baseOpaque url = some true) :
    commonCall url s = some (.normal
      { document := s.document,
        xhrs := s.xhrs ++
          [{ onreadystatechange := some Handler.commonCall_onreadystatechange,
             readyState := 1, status := 0, responseText := "", requestMethod := "GET",
             requestURL := url, asyncFlag := true, sendFlag := true }],
        calls := s.calls ++
          [HostCall.construct s.xhrs.length, HostCall.xhrOpen s.xhrs.length "GET" url true,
           HostCall.xhrSend s.xhrs.length none],
        reported := s.reported }) := by
  simp [commonCall, newXMLHttpRequest, setOnreadystatechange, xhrOpen, xhrSend,
    fireReadyStateChange, Handler.call, onreadystatechange, XMLHttpRequest.fresh, h]

theorem commonCall_throws {url : String} {s : Browser}
    (h : URL.resolves s.document.baseOpaque url = some false) :
    commonCall url s = some (.throws .syntaxError
      { document := s.document,
        xhrs := s.xhrs ++
          [{ XMLHttpRequest.fresh with
             onreadystatechange := some Handler.commonCall_onreadystatechange }],
        calls := s.calls ++
          [HostCall.construct s.xhrs.length, HostCall.xhrOpen s.xhrs.length "GET" url true],
        reported := s.reported }) := by
  simp [commonCall, newXMLHttpRequest, setOnreadystatechange, xhrOpen, XMLHttpRequest.fresh, h]

theorem commonCall_none {url : String} {s : Browser}
    (h : URL.resolves s.document.baseOpaque url = none) :
    commonCall url s = none := by
  simp [commonCall, newXMLHttpRequest, setOnreadystatechange, xhrOpen, h]

/-- What a call of `commonCall` that returns normally has done: the URL
resolved; the document and the reported errors are as before; one request
object was added, carrying the handler; three host calls were made. -/
theorem commonCall_returns {url : String} {s s1 : Browser}
    (h : commonCall url s = some (.normal s1)) :
    URL.resolves s.document.baseOpaque url = some true ∧
    s1.document = s.document ∧ s1.reported = s.reported ∧
    s1.calls = s.calls ++
      [HostCall.construct s.xhrs.length, HostCall.xhrOpen s.xhrs.length "GET" url true,
       HostCall.xhrSend s.xhrs.length none] ∧
    s1.xhrs = s.xhrs ++
      [{ onreadystatechange := some Handler.commonCall_onreadystatechange,
         readyState := 1, status := 0, responseText := "", requestMethod := "GET",
         requestURL := url, asyncFlag := true, sendFlag := true }] := by
  cases hr : URL.resolves s.document.baseOpaque url with
  | none => rw [commonCall_none hr] at h; cases h
  | some b =>
    cases b with
    | false => rw [commonCall_throws hr] at h; cases h
    | true =>
      rw [commonCall_normal hr] at h
      cases h
      exact ⟨rfl, rfl, rfl, rfl, rfl⟩

/-- Whichever way `commonCall` ends, the document is as before. -/
theorem commonCall_document {url : String} {s : Browser} {c : Completion}
    (h : commonCall url s = some c) : c.state.document = s.document := by
  cases hr : URL.resolves s.document.baseOpaque url with
  | none => rw [commonCall_none hr] at h; cases h
  | some b =>
    cases b with
    | false => rw [commonCall_throws hr] at h; cases h; rfl
    | true => rw [commonCall_normal hr] at h; cases h; rfl

/-- After `commonCall` the new request carries the handler. -/
theorem commonCall_handler {url : String} {s s1 : Browser}
    (h : commonCall url s = some (.normal s1)) :
    (s1.xhrs[s.xhrs.length]?).map XMLHttpRequest.onreadystatechange
      = some (some Handler.commonCall_onreadystatechange) := by
  obtain ⟨-, -, -, -, hx⟩ := commonCall_returns h
  rw [hx, List.getElem?_concat_length]
  rfl

/-- A request that carried the handler still carries it in a later state. -/
theorem handler_kept {s s' : Browser} {j : Nat} {h : Handler} (hk : s.keeps s')
    (hj : (s.xhrs[j]?).map XMLHttpRequest.onreadystatechange = some (some h)) :
    ∃ x, s'.xhrs[j]? = some x ∧ x.onreadystatechange = some h := by
  have := hk.2.2.2.1 j
  rw [hj] at this
  cases hx : s'.xhrs[j]? with
  | none => simp [hx] at this
  | some x =>
    refine ⟨x, rfl, ?_⟩
    simpa [hx] using this

/-! ## Lemmas on plain bodies -/

theorem normalizeNewlines_plain (cs : List Char) (h : ∀ c ∈ cs, HTML.isMarkupChar c = false) :
    HTML.normalizeNewlines cs = cs := by
  induction cs with
  | nil => rfl
  | cons c cs ih =>
    have hc := h c (List.mem_cons_self _ _)
    have hne : c ≠ '\r' := by
      intro he
      simp [HTML.isMarkupChar, he] at hc
    unfold HTML.normalizeNewlines
    rw [if_neg hne, ih (fun d hd => h d (List.mem_cons_of_mem _ hd))]

theorem tokenize_plain (cs : List Char) (h : ∀ c ∈ cs, HTML.isMarkupChar c = false) :
    HTML.tokenize .data cs = some (cs.map HTML.Token.character) := by
  induction cs with
  | nil => rfl
  | cons c cs ih =>
    have hc := h c (List.mem_cons_self _ _)
    simp only [HTML.isMarkupChar, Bool.or_eq_false_iff, decide_eq_false_iff_not] at hc
    obtain ⟨⟨⟨h1, h2⟩, -⟩, h4⟩ := hc
    simp only [HTML.tokenize, HTML.step, HTML.dataStep, if_neg h1, if_neg h2, if_neg h4]
    rw [ih (fun d hd => h d (List.mem_cons_of_mem _ hd))]
    rfl

theorem build_characters (cs : List Char) (d : String) :
    HTML.build (cs.map HTML.Token.character) [] [Node.text d]
      = some [Node.text (String.mk (d.data ++ cs))] := by
  induction cs generalizing d with
  | nil => simp [HTML.build, HTML.closeAll]
  | cons c cs ih =>
    simp only [List.map_cons, HTML.build, HTML.pushChar]
    rw [ih (d.push c)]
    simp [String.push]

/-- The nodes of a plain body: one text node holding it, or none when it is
empty; their text is the body. -/
theorem fragment_plain {context : String} (b : String)
    (hctx : context ∈ HTML.flowContainers)
    (h : ∀ c ∈ b.toList, HTML.isMarkupChar c = false) :
    textContentList (HTML.fragment context b) = some b := by
  have hp : HTML.parseFragment context b
      = HTML.build (b.toList.map HTML.Token.character) [] [] := by
    simp only [HTML.parseFragment, if_pos hctx, normalizeNewlines_plain _ h, tokenize_plain _ h]
  obtain ⟨cs⟩ := b
  cases cs with
  | nil =>
    have : HTML.parseFragment context (String.mk []) = some [] := by rw [hp]; rfl
    simp only [HTML.fragment, this]
    rfl
  | cons c cs =>
    have : HTML.parseFragment context (String.mk (c :: cs))
        = some [Node.text (String.mk (c :: cs))] := by
      rw [hp]
      simp only [String.toList, List.map_cons, HTML.build, HTML.pushChar]
      rw [build_characters cs (String.singleton c)]
      rfl
    simp only [HTML.fragment, this, textContentList, Node.textContent]
    simp

theorem escapeText_plain (cs : List Char) (h : ∀ c ∈ cs, HTML.isEscapedChar c = false) :
    HTML.escapeText cs = cs := by
  induction cs with
  | nil => rfl
  | cons c cs ih =>
    have hc := h c (List.mem_cons_self _ _)
    simp only [HTML.isEscapedChar, Bool.or_eq_false_iff, decide_eq_false_iff_not] at hc
    obtain ⟨⟨⟨h1, h2⟩, h3⟩, h4⟩ := hc
    simp only [HTML.escapeText, if_neg h1, if_neg h2, if_neg h3, if_neg h4]
    rw [ih (fun d hd => h d (List.mem_cons_of_mem _ hd))]
    rfl

/-- The serialisation of the nodes of a plain body without `>` and no-break
space is the body. -/
theorem serialize_plain {context : String} (b : String)
    (hctx : context ∈ HTML.flowContainers)
    (h : ∀ c ∈ b.toList, HTML.isMarkupChar c = false)
    (he : ∀ c ∈ b.toList, HTML.isEscapedChar c = false) :
    HTML.serializeList (HTML.fragment context b) = some b := by
  have hp : HTML.parseFragment context b
      = HTML.build (b.toList.map HTML.Token.character) [] [] := by
    simp only [HTML.parseFragment, if_pos hctx, normalizeNewlines_plain _ h, tokenize_plain _ h]
  obtain ⟨cs⟩ := b
  cases cs with
  | nil =>
    have : HTML.parseFragment context (String.mk []) = some [] := by rw [hp]; rfl
    simp only [HTML.fragment, this]
    rfl
  | cons c cs =>
    have : HTML.parseFragment context (String.mk (c :: cs))
        = some [Node.text (String.mk (c :: cs))] := by
      rw [hp]
      simp only [String.toList, List.map_cons, HTML.build, HTML.pushChar]
      rw [build_characters cs (String.singleton c)]
      rfl
    simp only [HTML.fragment, this, HTML.serializeList, HTML.serializeNode]
    have hesc : HTML.escapeText (String.mk (c :: cs)).toList = c :: cs :=
      escapeText_plain (c :: cs) he
    rw [hesc]
    simp


/-! ## Lemmas on what a completion leaves in the display target -/

theorem textContent_after {d : Document} {id : String} {path : List Nat} {name : String}
    {attrs : List (String × String)} {cs : List Node} (new : List Node)
    (hk : getElementById id d = .found path)
    (hn : nodeAt path d.children = some (.element name attrs cs)) :
    Document.textContent id { d with children := replaceChildren new path d.children }
      = textContentList new := by
  have h1 : getElementById id { d with children := replaceChildren new path d.children }
      = .found path := lookupList_replaceChildren new hk
  simp only [Document.textContent, h1, nodeAt_replaceChildren_self new hn]
  show Node.textContent (Node.element name attrs new) = textContentList new
  rw [Node.textContent]

theorem innerHTML_after {d : Document} {id : String} {path : List Nat} {name : String}
    {attrs : List (String × String)} {cs : List Node} (new : List Node)
    (hx : d.isXML = false) (hctx : name ∈ HTML.flowContainers)
    (hk : getElementById id d = .found path)
    (hn : nodeAt path d.children = some (.element name attrs cs)) :
    Document.innerHTML id { d with children := replaceChildren new path d.children }
      = HTML.serializeList new := by
  obtain ⟨isXML, base, children⟩ := d
  simp only at hx hn
  subst hx
  have h1 : getElementById id
      { isXML := false, baseOpaque := base, children := replaceChildren new path children }
      = .found path := lookupList_replaceChildren new hk
  simp only [Document.innerHTML, h1, nodeAt_replaceChildren_self new hn, if_pos hctx]
  rfl

/-- A completion with status 200 on an HTML page, delivered to a request that
carries the handler: the children of the display target are replaced by the
nodes of the body, and one write is logged. -/
theorem complete_html {s : Browser} {i : Nat} {x : XMLHttpRequest} {path : List Nat}
    {name : String} {attrs : List (String × String)} {cs : List Node} (b : String)
    (hx : s.xhrs[i]? = some x)
    (hh : x.onreadystatechange = some Handler.commonCall_onreadystatechange)
    (hhtml : s.document.isXML = false)
    (hk : getElementById "val" s.document = .found path)
    (hn : nodeAt path s.document.children = some (.element name attrs cs)) :
    ∃ s', receive i ⟨4, 200, b⟩ s = some s' ∧
      s'.document = { s.document with
        children := replaceChildren (HTML.fragment name b) path s.document.children } ∧
      s'.calls = s.calls ++ [HostCall.setInnerHTML path b] ∧ s'.reported = s.reported := by
  obtain ⟨t, ht, h1, h2, h3, -⟩ := receive_done_ok (p := ⟨4, 200, b⟩) hx hh rfl rfl hk
    (Document.setInnerHTML_html b hhtml hn)
  exact ⟨t, ht, h1, h2, h3⟩

/-- The display target, by name and attributes, in a later state. -/
theorem target_kept {s s' : Browser} {path : List Nat} {name : String}
    {attrs : List (String × String)} {cs : List Node} (hkeep : s.keeps s')
    (hk : getElementById "val" s.document = .found path)
    (hn : nodeAt path s.document.children = some (.element name attrs cs)) :
    getElementById "val" s'.document = .found path ∧
      ∃ cs', nodeAt path s'.document.children = some (.element name attrs cs') := by
  obtain ⟨h1, h2⟩ := hkeep.2.2.2.2 path hk
  refine ⟨h1, ?_⟩
  obtain ⟨name', attrs', cs', hn', -⟩ := nodeAt_of_lookup h1
  rw [hn, hn'] at h2
  simp only [Option.bind_some, Node.shallow, Option.some.injEq, Prod.mk.injEq] at h2
  obtain ⟨rfl, rfl⟩ := h2
  exact ⟨cs', hn'⟩

/-! ## The claims -/

/-- C1, as the code has it: on an HTML page with an element of id "val", when
the request issued by `commonCall` completes (readyState 4) with status 200 and
body `b`, the handler replaces the children of that element, whatever they
were, by the nodes the HTML parser makes of `b`.  When the element is an
ordinary container and `b` has none of `<`, `&`, CR and NUL, the text content
of the element is then `b`, and its `innerHTML` reads back as `b` when `b` has
no `>` and no no-break space either. -/
theorem C1_success_replaces_content (s : Browser) (url b : String)
    (evs : List (Nat × Progress)) (path : List Nat) (name : String)
    (attrs : List (String × String)) (cs : List Node)
    (hhtml : s.document.isXML = false)
    (hk : getElementById "val" s.document = .found path)
    (hn : nodeAt path s.document.children = some (.element name attrs cs))
    (hurl : URL.resolves s.document.baseOpaque url = some true) :
    ∃ s1 s2 s3, commonCall url s = some (.normal s1) ∧ receiveAll evs s1 = some s2 ∧
      receive s.xhrs.length ⟨4, 200, b⟩ s2 = some s3 ∧
      getElementById "val" s3.document = .found path ∧
      nodeAt path s3.document.children = some (.element name attrs (HTML.fragment name b)) ∧
      (name ∈ HTML.flowContainers → (∀ c ∈ b.toList, HTML.isMarkupChar c = false) →
        s3.document.textContent "val" = some b ∧
        ((∀ c ∈ b.toList, HTML.isEscapedChar c = false) →
          s3.document.innerHTML "val" = some b)) := by
  obtain ⟨s1, h1⟩ : ∃ s1, commonCall url s = some (.normal s1) := ⟨_, commonCall_normal hurl⟩
  obtain ⟨-, hd, -, -, -⟩ := commonCall_returns h1
  have hk1 : getElementById "val" s1.document = .found path := by rw [hd]; exact hk
  obtain ⟨s2, h2⟩ := receiveAll_defined evs (by rw [hd]; exact hhtml) hk1
  have hkeep := receiveAll_keeps h2
  obtain ⟨hk2, cs2, hn2⟩ := target_kept hkeep hk1 (by rw [hd]; exact hn)
  obtain ⟨x, hx, hh⟩ := handler_kept hkeep (commonCall_handler h1)
  have hhtml2 : s2.document.isXML = false := by rw [hkeep.1, hd]; exact hhtml
  obtain ⟨s3, h3, hd3, -, -⟩ := complete_html b hx hh hhtml2 hk2 hn2
  refine ⟨s1, s2, s3, h1, h2, h3, ?_, ?_, ?_⟩
  · rw [hd3]
    exact lookupList_replaceChildren _ hk2
  · rw [hd3]
    exact nodeAt_replaceChildren_self _ hn2
  · intro hctx hplain
    rw [hd3, textContent_after _ hk2 hn2, innerHTML_after _ hhtml2 hctx hk2 hn2]
    exact ⟨fragment_plain b hctx hplain, fun hesc => serialize_plain b hctx hplain hesc⟩

/-- C1 on the sample page: `up()` answered by 200 "ON" leaves "ON" in the
display target, `down()` answered by 200 "OFF" leaves "OFF". -/
theorem C1_success_replaces_content_witness :
    (∃ s1 s3, up samplePage = some (.normal s1) ∧ receive 0 ⟨4, 200, "ON"⟩ s1 = some s3 ∧
      s3.document.textContent "val" = some "ON" ∧ s3.document.innerHTML "val" = some "ON") ∧
    (∃ s1 s3, down samplePage = some (.normal s1) ∧ receive 0 ⟨4, 200, "OFF"⟩ s1 = some s3 ∧
      s3.document.textContent "val" = some "OFF" ∧
      s3.document.innerHTML "val" = some "OFF") := by
  constructor
  · obtain ⟨s1, s2, s3, h1, h2, h3, -, -, h⟩ :=
      C1_success_replaces_content samplePage "/up" "ON" [] [0, 0, 1] "p"
        [("id", "val"), ("class", "state")] [.text "old"]
        (by decide) (by decide) rfl (by decide)
    cases h2
    exact ⟨s1, s3, h1, h3, (h (by decide) (by decide)).1, (h (by decide) (by decide)).2 (by decide)⟩
  · obtain ⟨s1, s2, s3, h1, h2, h3, -, -, h⟩ :=
      C1_success_replaces_content samplePage "/down" "OFF" [] [0, 0, 1] "p"
        [("id", "val"), ("class", "state")] [.text "old"]
        (by decide) (by decide) rfl (by decide)
    cases h2
    exact ⟨s1, s3, h1, h3, (h (by decide) (by decide)).1, (h (by decide) (by decide)).2 (by decide)⟩

/-- C1 as stated fails: `up()` on the sample page answered by 200 with the body
`<B>ON` leaves a display target whose `innerHTML` reads `<b>ON</b>` and whose
text is `ON`; neither is the body. -/
theorem C1_counterexample :
    ∃ s1 s3, up samplePage = some (.normal s1) ∧ receive 0 ⟨4, 200, "<B>ON"⟩ s1 = some s3 ∧
      s3.document.innerHTML "val" = some "<b>ON</b>" ∧
      s3.document.textContent "val" = some "ON" ∧
      s3.document.innerHTML "val" ≠ some "<B>ON" ∧
      s3.document.textContent "val" ≠ some "<B>ON" :=
  ⟨_, _, commonCall_normal (by decide), rfl, by decide, by decide, by decide, by decide⟩


/-- C2: when the request issued by `commonCall` completes with a status other
than 200, the completion handler changes neither the document (so the content
of the display target is what it was) nor the call log, and raises no error. -/
theorem C2_other_status_leaves_content (s : Browser) (url body : String) (st : Nat)
    (evs : List (Nat × Progress)) (hst : st ≠ 200) :
    (∀ (x : XMLHttpRequest) (s' : Browser),
      onreadystatechange { x with readyState := 4, status := st, responseText := body } s'
        = some (.normal s')) ∧
    (URL.resolves s.document.baseOpaque url = some true →
      ∃ s1, commonCall url s = some (.normal s1)) ∧
    (∀ s1 s2, commonCall url s = some (.normal s1) → receiveAll evs s1 = some s2 →
      ∃ s3, receive s.xhrs.length ⟨4, st, body⟩ s2 = some s3 ∧
        s3.document = s2.document ∧
        s3.document.innerHTML "val" = s2.document.innerHTML "val" ∧
        s3.document.textContent "val" = s2.document.textContent "val" ∧
        s3.calls = s2.calls ∧ s3.reported = s2.reported) := by
  refine ⟨?_, fun hurl => ⟨_, commonCall_normal hurl⟩, ?_⟩
  · intro x s'
    exact onreadystatechange_skip (fun hc => hst hc.2)
  · intro s1 s2 _ _
    obtain ⟨s3, h3, hd, hc, hr, -⟩ := receive_skip s.xhrs.length s2
      (p := ⟨4, st, body⟩) (fun hc => hst hc.2)
    exact ⟨s3, h3, hd, by rw [hd], by rw [hd], hc, hr⟩

/-- C2 on the sample page: `up()` answered by 500 changes nothing. -/
theorem C2_other_status_leaves_content_witness :
    (500 : Nat) ≠ 200 ∧
    ∃ s1 s3, up samplePage = some (.normal s1) ∧
      receive 0 ⟨4, 500, "Internal Server Error"⟩ s1 = some s3 ∧
      s3.document = s1.document ∧
      s3.document.innerHTML "val" = some "old" ∧
      s3.document.textContent "val" = some "old" ∧
      s3.calls = s1.calls ∧ s3.reported = s1.reported := by
  refine ⟨by decide, ?_⟩
  have h := C2_other_status_leaves_content samplePage "/up" "Internal Server Error" 500 []
    (by decide)
  obtain ⟨s1, h1⟩ := h.2.1 (by decide)
  obtain ⟨s3, h3, hd, hi, ht, hc, hr⟩ := h.2.2 s1 s1 h1 rfl
  have hdoc : s1.document = samplePage.document := (commonCall_returns h1).2.1
  refine ⟨s1, s3, h1, h3, hd, ?_, ?_, hc, hr⟩
  · rw [hi, hdoc]
    decide
  · rw [ht, hdoc]
    decide

/-- C3: for a URL the page resolves, `commonCall` returns without an exception,
and so do `up` and `down` on a page with an ordinary base URL; when the request
then ends in a network failure (readyState 4, status 0, empty body), the
completion handler changes neither the document nor the call log and raises
no error. -/
theorem C3_network_failure_is_silent (s : Browser) (url : String)
    (evs : List (Nat × Progress)) :
    (∀ (x : XMLHttpRequest) (s' : Browser),
      onreadystatechange { x with readyState := 4, status := 0, responseText := "" } s'
        = some (.normal s')) ∧
    (URL.resolves s.document.baseOpaque url = some true →
      ∃ s1, commonCall url s = some (.normal s1) ∧ s1.document = s.document ∧
        s1.reported = s.reported) ∧
    (s.document.baseOpaque = false →
      (∃ s1, up s = some (.normal s1) ∧ s1.document = s.document ∧
        s1.reported = s.reported) ∧
      (∃ s1, down s = some (.normal s1) ∧ s1.document = s.document ∧
        s1.reported = s.reported)) ∧
    (∀ u s1 s2, commonCall u s = some (.normal s1) → receiveAll evs s1 = some s2 →
      ∃ s3, receive s.xhrs.length Progress.networkError s2 = some s3 ∧
        s3.document = s2.document ∧ s3.calls = s2.calls ∧ s3.reported = s2.reported) := by
  have key : ∀ u : String, URL.resolves s.document.baseOpaque u = some true →
      ∃ s1, commonCall u s = some (.normal s1) ∧ s1.document = s.document ∧
        s1.reported = s.reported := by
    intro u hu
    have h1 := commonCall_normal hu
    exact ⟨_, h1, rfl, rfl⟩
  refine ⟨?_, key url, ?_, ?_⟩
  · intro x s'
    exact onreadystatechange_skip (fun hc => by simp at hc)
  · intro hb
    exact ⟨key "/up" (by rw [hb]; decide), key "/down" (by rw [hb]; decide)⟩
  · intro u s1 s2 _ _
    obtain ⟨s3, h3, hd, hc, hr, -⟩ := receive_skip s.xhrs.length s2
      (p := Progress.networkError) (fun hc => by simp [Progress.networkError] at hc)
    exact ⟨s3, h3, hd, hc, hr⟩

/-- C3 on the sample page: `up()` returns, and the network failure of its
request leaves the display target and the reported errors as they were. -/
theorem C3_network_failure_is_silent_witness :
    samplePage.document.baseOpaque = false ∧
    ∃ s1 s3, up samplePage = some (.normal s1) ∧
      receive 0 Progress.networkError s1 = some s3 ∧
      s3.document = s1.document ∧ s3.calls = s1.calls ∧ s3.reported = s1.reported := by
  refine ⟨rfl, ?_⟩
  have h := C3_network_failure_is_silent samplePage "/up" []
  obtain ⟨s1, h1, -, -⟩ := (h.2.2.1 rfl).1
  obtain ⟨s3, h3, hd, hc, hr⟩ := h.2.2.2 "/up" s1 s1 h1 rfl
  exact ⟨s1, s3, h1, h3, hd, hc, hr⟩

/-- The setter returns or throws, unless the page is an XML document and the
markup is outside the modelled part of XML. -/
theorem Document.setInnerHTML_defined {d : Document} {p : List Nat} (markup : String)
    {name : String} {attrs : List (String × String)} {cs : List Node}
    (hn : nodeAt p d.children = some (.element name attrs cs))
    (hx : d.isXML = true → (XML.parseFragment markup).isBeyond = false) :
    ∃ r, d.setInnerHTML p markup = some r := by
  cases h : d.setInnerHTML p markup with
  | some r => exact ⟨r, rfl⟩
  | none =>
    obtain ⟨h1, h2⟩ := Document.setInnerHTML_none hn h
    rw [hx h1] at h2
    cases h2

/-- C4: for one invocation of `commonCall` whose display target exists, over
any sequence of readyState changes of its request that ends in the single
completion event with status `st`, the handler assigns to `innerHTML` exactly
once when `st = 200`, and then to the element with id "val", and not at all
otherwise; an event below readyState 4 never writes, whatever its status. -/
theorem C4_one_write_iff_success (s : Browser) (url body : String) (st : Nat)
    (evs : List Progress) (path : List Nat)
    (hval : getElementById "val" s.document = .found path)
    (hevs : ∀ p ∈ evs, p.readyState ≠ 4)
    (hurl : URL.resolves s.document.baseOpaque url = some true)
    (hxml : s.document.isXML = true → st = 200 →
      (XML.parseFragment body).isBeyond = false) :
    (∀ (i : Nat) (p : Progress) (s' : Browser), p.readyState < 4 →
      ∃ s'', receive i p s' = some s'' ∧ s''.writes = s'.writes) ∧
    ∃ s1 s2, commonCall url s = some (.normal s1) ∧
      receiveAll ((evs ++ [Progress.mk 4 st body]).map (fun p => (s.xhrs.length, p))) s1
        = some s2 ∧
      s2.writes = s.writes + (if st = 200 then 1 else 0) ∧
      s2.calls.filter HostCall.isWrite = s.calls.filter HostCall.isWrite ++
        (if st = 200 then [HostCall.setInnerHTML path body] else []) := by
  constructor
  · intro i p s' hp
    obtain ⟨s'', h, -, hc, -, -⟩ := receive_skip i s' (p := p) (fun hc => by omega)
    exact ⟨s'', h, by simp only [Browser.writes, hc]⟩
  · obtain ⟨s1, h1⟩ : ∃ s1, commonCall url s = some (.normal s1) :=
      ⟨_, commonCall_normal hurl⟩
    obtain ⟨-, hd, -, hc, -⟩ := commonCall_returns h1
    obtain ⟨t, ht, htd, htc, -⟩ := receiveAll_skip (evs.map (fun p => (s.xhrs.length, p))) s1
      (by
        intro e he
        obtain ⟨p, hp, rfl⟩ := List.mem_map.1 he
        exact hevs p hp)
    have hkeep := receiveAll_keeps ht
    obtain ⟨x, hx, hh⟩ := handler_kept hkeep (commonCall_handler h1)
    have hkt : getElementById "val" t.document = .found path := by rw [htd, hd]; exact hval
    have hcalls : t.calls.filter HostCall.isWrite = s.calls.filter HostCall.isWrite := by
      rw [htc, hc]
      simp [List.filter_append, HostCall.isWrite]
    have hfinal : ∃ s2, receive s.xhrs.length ⟨4, st, body⟩ t = some s2 ∧
        s2.calls = t.calls ++ (if st = 200 then [HostCall.setInnerHTML path body] else []) := by
      by_cases h200 : st = 200
      · subst h200
        obtain ⟨name, attrs, cs, hn, -⟩ := nodeAt_of_lookup hkt
        obtain ⟨r, hr⟩ := Document.setInnerHTML_defined body hn (by
          intro hx'
          exact hxml (by rw [← hd, ← htd]; exact hx') rfl)
        cases r with
        | ok d =>
          obtain ⟨s2, h2, -, hc2, -⟩ := receive_done_ok (p := ⟨4, 200, body⟩) hx hh rfl rfl hkt hr
          exact ⟨s2, h2, by simpa using hc2⟩
        | error e =>
          obtain ⟨s2, h2, -, hc2, -⟩ :=
            receive_done_error (p := ⟨4, 200, body⟩) hx hh rfl rfl hkt hr
          exact ⟨s2, h2, by simpa using hc2⟩
      · obtain ⟨s2, h2, -, hc2, -⟩ := receive_skip s.xhrs.length t
          (p := ⟨4, st, body⟩) (fun hc => h200 hc.2)
        exact ⟨s2, h2, by simp [h200, hc2]⟩
    obtain ⟨s2, h2, hc2⟩ := hfinal
    have hflt : s2.calls.filter HostCall.isWrite = s.calls.filter HostCall.isWrite ++
        (if st = 200 then [HostCall.setInnerHTML path body] else []) := by
      rw [hc2, List.filter_append, hcalls]
      by_cases h200 : st = 200 <;> simp [h200, HostCall.isWrite]
    refine ⟨s1, s2, h1, ?_, ?_, hflt⟩
    · rw [List.map_append, receiveAll_append, ht]
      show receiveAll [(s.xhrs.length, Progress.mk 4 st body)] t = some s2
      simp only [receiveAll, h2]
    · have := congrArg List.length hflt
      simp only [Browser.writes, List.countP_eq_length_filter]
      rw [this, List.length_append]
      by_cases h200 : st = 200 <;> simp [h200]

/-- C4 on the sample page: headers (status 200 already readable), loading,
then completion; one write for status 200, and it goes to the "val" element. -/
theorem C4_one_write_iff_success_witness :
    getElementById "val" samplePage.document = .found [0, 0, 1] ∧
    (∀ p ∈ [Progress.mk 2 200 "", Progress.mk 3 200 "O"], p.readyState ≠ 4) ∧
    ∃ s1 s2, up samplePage = some (.normal s1) ∧
      receiveAll (([Progress.mk 2 200 "", Progress.mk 3 200 "O"]
        ++ [Progress.mk 4 200 "ON"]).map (fun p => (0, p))) s1 = some s2 ∧
      s2.writes = 0 + (if 200 = 200 then 1 else 0) ∧
      s2.calls.filter HostCall.isWrite = [] ++
        (if 200 = 200 then [HostCall.setInnerHTML [0, 0, 1] "ON"] else []) :=
  ⟨by decide, by decide,
   (C4_one_write_iff_success samplePage "/up" "ON" 200
      [Progress.mk 2 200 "", Progress.mk 3 200 "O"] [0, 0, 1] (by decide) (by decide)
      (by decide) (fun h => by cases h)).2⟩


/-- The document after an event depends on the state only through the
document, the event, and the handler of the request. -/
theorem receive_document_congr {i j : Nat} {s t : Browser} {x y : XMLHttpRequest}
    (p : Progress) (hd : s.document = t.document)
    (hx : s.xhrs[i]? = some x) (hy : t.xhrs[j]? = some y)
    (hhx : x.onreadystatechange = some Handler.commonCall_onreadystatechange)
    (hhy : y.onreadystatechange = some Handler.commonCall_onreadystatechange) :
    (receive i p s).map Browser.document = (receive j p t).map Browser.document := by
  by_cases hc : p.readyState = 4 ∧ p.status = 200
  · cases hk : getElementById "val" s.document with
    | beyond =>
      rw [receive_beyond hx hhx hc.1 hc.2 hk, receive_beyond hy hhy hc.1 hc.2 (hd ▸ hk)]
    | absent =>
      obtain ⟨a, ha, ha1, -⟩ := receive_missing hx hhx hc.1 hc.2 hk
      obtain ⟨b, hb, hb1, -⟩ := receive_missing hy hhy hc.1 hc.2 (hd ▸ hk)
      rw [ha, hb, Option.map_some', Option.map_some', ha1, hb1, hd]
    | found path =>
      cases hr : s.document.setInnerHTML path p.responseText with
      | none =>
        rw [receive_done_none hx hhx hc.1 hc.2 hk hr,
          receive_done_none hy hhy hc.1 hc.2 (hd ▸ hk) (hd ▸ hr)]
      | some r =>
        cases r with
        | error e =>
          obtain ⟨a, ha, ha1, -⟩ := receive_done_error hx hhx hc.1 hc.2 hk hr
          obtain ⟨b, hb, hb1, -⟩ := receive_done_error hy hhy hc.1 hc.2 (hd ▸ hk) (hd ▸ hr)
          rw [ha, hb, Option.map_some', Option.map_some', ha1, hb1, hd]
        | ok d =>
          obtain ⟨a, ha, ha1, -⟩ := receive_done_ok hx hhx hc.1 hc.2 hk hr
          obtain ⟨b, hb, hb1, -⟩ := receive_done_ok hy hhy hc.1 hc.2 (hd ▸ hk) (hd ▸ hr)
          rw [ha, hb, Option.map_some', Option.map_some', ha1, hb1]
  · obtain ⟨a, ha, ha1, -⟩ := receive_skip i s hc
    obtain ⟨b, hb, hb1, -⟩ := receive_skip j t hc
    rw [ha, hb, Option.map_some', Option.map_some', ha1, hb1, hd]

/-- C5: `up()` is `commonCall("/up")` and `down()` is `commonCall("/down")`.  On
a page with an ordinary base URL each returns normally and adds one request
object with method GET and its URL, both with the same handler; the two
handlers do the same to the document on every event, and on a completion with
status 200 the document becomes what the `innerHTML` setter of the element
with id "val" makes of it. -/
theorem C5_up_down_are_commonCall (s : Browser) :
    up s = commonCall "/up" s ∧ down s = commonCall "/down" s ∧
    (s.document.baseOpaque = false →
      ∃ s1 s2 x1 x2, up s = some (.normal s1) ∧ down s = some (.normal s2) ∧
        s1.xhrs = s.xhrs ++ [x1] ∧ s2.xhrs = s.xhrs ++ [x2] ∧
        x1.requestMethod = "GET" ∧ x1.requestURL = "/up" ∧
        x2.requestMethod = "GET" ∧ x2.requestURL = "/down" ∧
        x1.onreadystatechange = some Handler.commonCall_onreadystatechange ∧
        x2.onreadystatechange = x1.onreadystatechange ∧
        s1.calls = s.calls ++ [HostCall.construct s.xhrs.length,
          HostCall.xhrOpen s.xhrs.length "GET" "/up" true,
          HostCall.xhrSend s.xhrs.length none] ∧
        s2.calls = s.calls ++ [HostCall.construct s.xhrs.length,
          HostCall.xhrOpen s.xhrs.length "GET" "/down" true,
          HostCall.xhrSend s.xhrs.length none] ∧
        (∀ p : Progress,
          (receive s.xhrs.length p s1).map Browser.document
            = (receive s.xhrs.length p s2).map Browser.document) ∧
        (∀ (b : String) (path : List Nat) (d : Document),
          getElementById "val" s.document = .found path →
          s.document.setInnerHTML path b = some (.ok d) →
          ∃ t1 t2, receive s.xhrs.length ⟨4, 200, b⟩ s1 = some t1 ∧
            receive s.xhrs.length ⟨4, 200, b⟩ s2 = some t2 ∧
            t1.document = d ∧ t2.document = d)) := by
  refine ⟨rfl, rfl, ?_⟩
  intro hb
  obtain ⟨s1, h1⟩ : ∃ s1, commonCall "/up" s = some (.normal s1) :=
    ⟨_, commonCall_normal (by rw [hb]; decide)⟩
  obtain ⟨s2, h2⟩ : ∃ s2, commonCall "/down" s = some (.normal s2) :=
    ⟨_, commonCall_normal (by rw [hb]; decide)⟩
  obtain ⟨-, hd1, -, hc1, hx1⟩ := commonCall_returns h1
  obtain ⟨-, hd2, -, hc2, hx2⟩ := commonCall_returns h2
  obtain ⟨y1, g1, gh1⟩ := handler_kept (Browser.keeps_refl s1) (commonCall_handler h1)
  obtain ⟨y2, g2, gh2⟩ := handler_kept (Browser.keeps_refl s2) (commonCall_handler h2)
  refine ⟨s1, s2, _, _, h1, h2, hx1, hx2, rfl, rfl, rfl, rfl, rfl, rfl, hc1, hc2, ?_, ?_⟩
  · intro p
    exact receive_document_congr p (hd1.trans hd2.symm) g1 g2 gh1 gh2
  · intro b path d hk hset
    obtain ⟨t1, ht1, e1, -⟩ := receive_done_ok (p := ⟨4, 200, b⟩) g1 gh1 rfl rfl
      (hd1 ▸ hk) (hd1 ▸ hset)
    obtain ⟨t2, ht2, e2, -⟩ := receive_done_ok (p := ⟨4, 200, b⟩) g2 gh2 rfl rfl
      (hd2 ▸ hk) (hd2 ▸ hset)
    exact ⟨t1, t2, ht1, ht2, e1, e2⟩

/-- C5 on the sample page: after `up()` and after `down()` a completion with
200 "ON" leaves "ON" in the element with id "val". -/
theorem C5_up_down_are_commonCall_witness :
    samplePage.document.baseOpaque = false ∧
    getElementById "val" samplePage.document = .found [0, 0, 1] ∧
    ∃ s1 s2 t1 t2, up samplePage = some (.normal s1) ∧ down samplePage = some (.normal s2) ∧
      receive 0 ⟨4, 200, "ON"⟩ s1 = some t1 ∧ receive 0 ⟨4, 200, "ON"⟩ s2 = some t2 ∧
      t1.document.textContent "val" = some "ON" ∧
      t2.document.textContent "val" = some "ON" := by
  refine ⟨rfl, by decide, ?_⟩
  obtain ⟨s1, s2, -, -, h1, h2, -, -, -, -, -, -, -, -, -, -, -, h⟩ :=
    (C5_up_down_are_commonCall samplePage).2.2 rfl
  obtain ⟨t1, t2, g1, g2, e1, e2⟩ := h "ON" [0, 0, 1] _ (by decide) rfl
  refine ⟨s1, s2, t1, t2, h1, h2, g1, g2, ?_, ?_⟩
  · rw [e1]
    decide
  · rw [e2]
    decide

/-- C6, as the code has it: for a URL string that the page resolves, one
invocation of `commonCall` creates one request object, opens it once with
method GET, the URL as given and the asynchronous flag true, and sends it once
without a body; no event, whatever its outcome, makes the handler create, open
or send anything, so the number of requests stays one.  For a URL string that
does not parse, `open` throws a `SyntaxError` and no request is sent. -/
theorem C6_exactly_one_request (s : Browser) (url : String) (evs : List (Nat × Progress)) :
    (URL.resolves s.document.baseOpaque url = some true →
      ∃ s1 x, commonCall url s = some (.normal s1) ∧ s1.xhrs = s.xhrs ++ [x] ∧
        x.requestMethod = "GET" ∧ x.requestURL = url ∧ x.asyncFlag = true ∧
        x.sendFlag = true ∧
        s1.calls = s.calls ++ [HostCall.construct s.xhrs.length,
          HostCall.xhrOpen s.xhrs.length "GET" url true, HostCall.xhrSend s.xhrs.length none] ∧
        s1.requests = s.requests + 1 ∧
        ∀ s2, receiveAll evs s1 = some s2 →
          s2.requests = s.requests + 1 ∧ s2.xhrs.length = s.xhrs.length + 1 ∧
          s2.calls.filter (fun c => !c.isWrite) = s1.calls.filter (fun c => !c.isWrite)) ∧
    (URL.resolves s.document.baseOpaque url = some false →
      ∃ s', commonCall url s = some (.throws .syntaxError s') ∧ s'.requests = s.requests) := by
  constructor
  · intro hurl
    obtain ⟨s1, h1⟩ : ∃ s1, commonCall url s = some (.normal s1) :=
      ⟨_, commonCall_normal hurl⟩
    obtain ⟨-, -, -, hc, hx⟩ := commonCall_returns h1
    have hr : s1.requests = s.requests + 1 := by
      simp [Browser.requests, hc, List.countP_append, List.countP_cons, HostCall.isSend]
    refine ⟨s1, _, h1, hx, rfl, rfl, rfl, rfl, hc, hr, ?_⟩
    intro s2 h2
    have hkeep := receiveAll_keeps h2
    have hflt : ∀ (evs : List (Nat × Progress)) (a b : Browser), receiveAll evs a = some b →
        b.calls.filter (fun c => !c.isWrite) = a.calls.filter (fun c => !c.isWrite) ∧
        b.requests = a.requests := by
      intro evs
      induction evs with
      | nil =>
        intro a b hab
        cases hab
        exact ⟨rfl, rfl⟩
      | cons e evs ih =>
        intro a b hab
        obtain ⟨i, p⟩ := e
        simp only [receiveAll] at hab
        cases hm : receive i p a with
        | none => simp [hm] at hab
        | some m =>
          rw [hm] at hab
          obtain ⟨f1, f2⟩ := ih m b hab
          rcases receive_frame hm with ⟨-, hcm⟩ | ⟨-, -, path, -, hcm, -⟩
          · exact ⟨by rw [f1, hcm], by rw [f2]; simp only [Browser.requests, hcm]⟩
          · refine ⟨by rw [f1, hcm]; simp [List.filter_append, HostCall.isWrite], ?_⟩
            rw [f2]
            simp [Browser.requests, hcm, List.countP_append, HostCall.isSend]
    obtain ⟨f1, f2⟩ := hflt evs s1 s2 h2
    refine ⟨by rw [f2, hr], ?_, f1⟩
    rw [hkeep.2.2.1, hx]
    simp
  · intro hurl
    refine ⟨_, commonCall_throws hurl, ?_⟩
    simp [Browser.requests, List.countP_append, List.countP_cons, HostCall.isSend]

/-- C6 on the sample page: `commonCall("/up")` sends one request, and
`commonCall("http://")` throws and sends none. -/
theorem C6_exactly_one_request_witness :
    URL.resolves samplePage.document.baseOpaque "/up" = some true ∧
    (∃ s1, commonCall "/up" samplePage = some (.normal s1) ∧ s1.requests = 0 + 1) ∧
    URL.resolves samplePage.document.baseOpaque "http://" = some false ∧
    (∃ s', commonCall "http://" samplePage = some (.throws .syntaxError s') ∧
      s'.requests = 0) := by
  have h := C6_exactly_one_request samplePage "/up" []
  have g := C6_exactly_one_request samplePage "http://" []
  refine ⟨by decide, ?_, by decide, g.2 (by decide)⟩
  obtain ⟨s1, x, h1, -, -, -, -, -, -, hr, -⟩ := h.1 (by decide)
  exact ⟨s1, h1, hr⟩

/-- C6 as stated fails: for the URL string `http://`, which has no host,
`open` throws a `SyntaxError`, `send` is not reached and no request is issued. -/
theorem C6_counterexample :
    ∃ s', commonCall "http://" samplePage = some (.throws .syntaxError s') ∧
      s'.requests = 0 ∧
      s'.calls = [HostCall.construct 0, HostCall.xhrOpen 0 "GET" "http://" true] :=
  ⟨_, commonCall_throws (by decide), by decide, by decide⟩


/-- Whatever came before, once a request carrying the handler completes with
status 200 on an HTML page and only progress events follow, the display target
holds the nodes of its body. -/
theorem last_completion (before after : List (Nat × Progress)) (s : Browser) (j : Nat)
    (b : String) (path : List Nat) (name : String) (attrs : List (String × String))
    (cs : List Node)
    (hhtml : s.document.isXML = false)
    (hk : getElementById "val" s.document = .found path)
    (hn : nodeAt path s.document.children = some (.element name attrs cs))
    (hj : (s.xhrs[j]?).map XMLHttpRequest.onreadystatechange
      = some (some Handler.commonCall_onreadystatechange))
    (hafter : ∀ e ∈ after, e.2.readyState ≠ 4) :
    ∃ s3, receiveAll (before ++ [(j, Progress.mk 4 200 b)] ++ after) s = some s3 ∧
      getElementById "val" s3.document = .found path ∧
      nodeAt path s3.document.children = some (.element name attrs (HTML.fragment name b)) ∧
      (name ∈ HTML.flowContainers → (∀ c ∈ b.toList, HTML.isMarkupChar c = false) →
        s3.document.textContent "val" = some b ∧
        ((∀ c ∈ b.toList, HTML.isEscapedChar c = false) →
          s3.document.innerHTML "val" = some b)) := by
  obtain ⟨a, ha⟩ := receiveAll_defined before hhtml hk
  have hkeep := receiveAll_keeps ha
  obtain ⟨hka, csa, hna⟩ := target_kept hkeep hk hn
  obtain ⟨x, hx, hh⟩ := handler_kept hkeep hj
  have hhtmla : a.document.isXML = false := by rw [hkeep.1]; exact hhtml
  obtain ⟨m, hm, hdm, -, -⟩ := complete_html b hx hh hhtmla hka hna
  obtain ⟨s3, h3, hd3, -, -⟩ := receiveAll_skip after m hafter
  refine ⟨s3, ?_, ?_, ?_, ?_⟩
  · rw [receiveAll_append, receiveAll_append, ha]
    show (receiveAll [(j, Progress.mk 4 200 b)] a).bind (receiveAll after) = some s3
    simp only [receiveAll, hm]
    exact h3
  · rw [hd3, hdm]
    exact lookupList_replaceChildren _ hka
  · rw [hd3, hdm]
    exact nodeAt_replaceChildren_self _ hna
  · intro hctx hplain
    rw [hd3, hdm, textContent_after _ hka hna, innerHTML_after _ hhtmla hctx hka hna]
    exact ⟨fragment_plain b hctx hplain, fun hesc => serialize_plain b hctx hplain hesc⟩

/-- C7, as the code has it: two invocations of `commonCall` on an HTML page,
the second made after any events of the first request, both answered with
status 200, with bodies `b1` (first call) and `b2` (second call).  Whichever
of the two completions is processed last, and whatever events surround them,
the display target ends with the nodes the HTML parser makes of the body that
completed last; its text is that body when the body has none of `<`, `&`, CR
and NUL, and its `innerHTML` reads back as that body when the body has no `>`
and no no-break space either. -/
theorem C7_last_completion_wins (s : Browser) (u1 u2 b1 b2 : String) (firstCallLast : Bool)
    (early pre mid post : List (Nat × Progress)) (path : List Nat) (name : String)
    (attrs : List (String × String)) (cs : List Node)
    (hhtml : s.document.isXML = false)
    (hk : getElementById "val" s.document = .found path)
    (hn : nodeAt path s.document.children = some (.element name attrs cs))
    (hu1 : URL.resolves s.document.baseOpaque u1 = some true)
    (hu2 : URL.resolves s.document.baseOpaque u2 = some true)
    (hpost : ∀ e ∈ post, e.2.readyState ≠ 4) :
    ∃ s1 s1' s2 s3, commonCall u1 s = some (.normal s1) ∧ receiveAll early s1 = some s1' ∧
      commonCall u2 s1' = some (.normal s2) ∧
      receiveAll
        (pre ++ [if firstCallLast then (s.xhrs.length + 1, Progress.mk 4 200 b2)
                 else (s.xhrs.length, Progress.mk 4 200 b1)]
          ++ mid ++ [if firstCallLast then (s.xhrs.length, Progress.mk 4 200 b1)
                     else (s.xhrs.length + 1, Progress.mk 4 200 b2)]
          ++ post) s2 = some s3 ∧
      s2.xhrs.length = s.xhrs.length + 2 ∧
      getElementById "val" s3.document = .found path ∧
      nodeAt path s3.document.children
        = some (.element name attrs (HTML.fragment name (if firstCallLast then b1 else b2))) ∧
      (name ∈ HTML.flowContainers →
        (∀ c ∈ (if firstCallLast then b1 else b2).toList, HTML.isMarkupChar c = false) →
        s3.document.textContent "val" = some (if firstCallLast then b1 else b2) ∧
        ((∀ c ∈ (if firstCallLast then b1 else b2).toList, HTML.isEscapedChar c = false) →
          s3.document.innerHTML "val" = some (if firstCallLast then b1 else b2))) := by
  obtain ⟨s1, h1⟩ : ∃ s1, commonCall u1 s = some (.normal s1) := ⟨_, commonCall_normal hu1⟩
  obtain ⟨-, hd1, -, -, hx1⟩ := commonCall_returns h1
  have hk1 : getElementById "val" s1.document = .found path := by rw [hd1]; exact hk
  have hhtml1 : s1.document.isXML = false := by rw [hd1]; exact hhtml
  obtain ⟨s1', he⟩ := receiveAll_defined early hhtml1 hk1
  have hkeep := receiveAll_keeps he
  have hbase : s1'.document.baseOpaque = s.document.baseOpaque := by rw [hkeep.2.1, hd1]
  obtain ⟨s2, h2⟩ : ∃ s2, commonCall u2 s1' = some (.normal s2) :=
    ⟨_, commonCall_normal (by rw [hbase]; exact hu2)⟩
  obtain ⟨-, hd2, -, -, hx2⟩ := commonCall_returns h2
  have hlen : s1'.xhrs.length = s.xhrs.length + 1 := by rw [hkeep.2.2.1, hx1]; simp
  obtain ⟨hk1', cs', hn1'⟩ := target_kept hkeep hk1 (by rw [hd1]; exact hn)
  have hk2 : getElementById "val" s2.document = .found path := by rw [hd2]; exact hk1'
  have hn2 : nodeAt path s2.document.children = some (.element name attrs cs') := by
    rw [hd2]; exact hn1'
  have hhtml2 : s2.document.isXML = false := by rw [hd2, hkeep.1]; exact hhtml1
  obtain ⟨x, hx, hh⟩ := handler_kept hkeep (commonCall_handler h1)
  have g1 : (s2.xhrs[s.xhrs.length]?).map XMLHttpRequest.onreadystatechange
      = some (some Handler.commonCall_onreadystatechange) := by
    rw [hx2, List.getElem?_append_left (by omega), hx, Option.map_some', hh]
  have g2 : (s2.xhrs[s.xhrs.length + 1]?).map XMLHttpRequest.onreadystatechange
      = some (some Handler.commonCall_onreadystatechange) := by
    rw [← hlen]
    exact commonCall_handler h2
  have hlen2 : s2.xhrs.length = s.xhrs.length + 2 := by rw [hx2]; simp [hlen]
  cases firstCallLast with
  | true =>
    obtain ⟨s3, h3, r⟩ := last_completion
      (pre ++ [(s.xhrs.length + 1, Progress.mk 4 200 b2)] ++ mid) post s2 s.xhrs.length b1
      path name attrs cs' hhtml2 hk2 hn2 g1 hpost
    exact ⟨s1, s1', s2, s3, h1, he, h2, h3, hlen2, r⟩
  | false =>
    obtain ⟨s3, h3, r⟩ := last_completion
      (pre ++ [(s.xhrs.length, Progress.mk 4 200 b1)] ++ mid) post s2 (s.xhrs.length + 1) b2
      path name attrs cs' hhtml2 hk2 hn2 g2 hpost
    exact ⟨s1, s1', s2, s3, h1, he, h2, h3, hlen2, r⟩

/-- C7 on the sample page, `up()`, the headers of its response, then `down()`,
events interleaved: when the request of `down()` completes last the target
shows "OFF", when the request of `up()` completes last it shows "ON". -/
theorem C7_last_completion_wins_witness :
    (∀ e ∈ [((1 : Nat), Progress.mk 3 200 "OF")], e.2.readyState ≠ 4) ∧
    (∃ s1 s1' s2 s3, up samplePage = some (.normal s1) ∧
      receiveAll [(0, Progress.mk 2 200 "")] s1 = some s1' ∧
      down s1' = some (.normal s2) ∧
      receiveAll
        ([(1, Progress.mk 2 200 "")]
          ++ [if false then (0 + 1, Progress.mk 4 200 "OFF") else (0, Progress.mk 4 200 "ON")]
          ++ [(1, Progress.mk 3 200 "O")]
          ++ [if false then (0, Progress.mk 4 200 "ON") else (0 + 1, Progress.mk 4 200 "OFF")]
          ++ []) s2 = some s3 ∧
      s3.document.textContent "val" = some "OFF" ∧
      s3.document.innerHTML "val" = some "OFF") ∧
    (∃ s1 s1' s2 s3, up samplePage = some (.normal s1) ∧
      receiveAll [(0, Progress.mk 2 200 "")] s1 = some s1' ∧
      down s1' = some (.normal s2) ∧
      receiveAll
        ([(1, Progress.mk 2 200 "")]
          ++ [if true then (0 + 1, Progress.mk 4 200 "OFF") else (0, Progress.mk 4 200 "ON")]
          ++ [(0, Progress.mk 3 200 "O")]
          ++ [if true then (0, Progress.mk 4 200 "ON") else (0 + 1, Progress.mk 4 200 "OFF")]
          ++ [(1, Progress.mk 3 200 "OF")]) s2 = some s3 ∧
      s3.document.textContent "val" = some "ON" ∧
      s3.document.innerHTML "val" = some "ON") := by
  refine ⟨by decide, ?_, ?_⟩
  · obtain ⟨s1, s1', s2, s3, h1, he, h2, h3, -, -, -, h⟩ :=
      C7_last_completion_wins samplePage "/up" "/down" "ON" "OFF" false
        [(0, Progress.mk 2 200 "")] [(1, Progress.mk 2 200 "")] [(1, Progress.mk 3 200 "O")] []
        [0, 0, 1] "p" [("id", "val"), ("class", "state")] [.text "old"]
        (by decide) (by decide) rfl (by decide) (by decide) (by decide)
    exact ⟨s1, s1', s2, s3, h1, he, h2, h3, (h (by decide) (by decide)).1,
      (h (by decide) (by decide)).2 (by decide)⟩
  · obtain ⟨s1, s1', s2, s3, h1, he, h2, h3, -, -, -, h⟩ :=
      C7_last_completion_wins samplePage "/up" "/down" "ON" "OFF" true
        [(0, Progress.mk 2 200 "")] [(1, Progress.mk 2 200 "")] [(0, Progress.mk 3 200 "O")]
        [(1, Progress.mk 3 200 "OF")]
        [0, 0, 1] "p" [("id", "val"), ("class", "state")] [.text "old"]
        (by decide) (by decide) rfl (by decide) (by decide) (by decide)
    exact ⟨s1, s1', s2, s3, h1, he, h2, h3, (h (by decide) (by decide)).1,
      (h (by decide) (by decide)).2 (by decide)⟩

/-- C7 as stated fails: `up()` then `down()` on the sample page, the request of
`up()` completing first with "ON" and that of `down()` last with the body
`<B>OFF`: the display target ends with `innerHTML` `<b>OFF</b>` and text `OFF`,
neither of which is the body completed last. -/
theorem C7_counterexample :
    ∃ s1 s2 s3, up samplePage = some (.normal s1) ∧ down s1 = some (.normal s2) ∧
      receiveAll [(0, Progress.mk 4 200 "ON"), (1, Progress.mk 4 200 "<B>OFF")] s2 = some s3 ∧
      s3.document.innerHTML "val" = some "<b>OFF</b>" ∧
      s3.document.textContent "val" = some "OFF" ∧
      s3.document.innerHTML "val" ≠ some "<B>OFF" ∧
      s3.document.textContent "val" ≠ some "<B>OFF" :=
  ⟨_, _, _, commonCall_normal (by decide), commonCall_normal (by decide), rfl,
    by decide, by decide, by decide, by decide⟩


/-- C8, as the code has it: on a completion with status 200 the handler is the
assignment of the body `b`, character for character, to the `innerHTML` of the
element with id "val", so the body is read as markup; on an HTML page the text
content of the element equals `b` when the element is an ordinary container and
`b` has none of the characters `<`, `&`, CR and NUL. -/
theorem C8_body_is_assigned_as_markup (s : Browser) (url b : String)
    (evs : List (Nat × Progress)) (path : List Nat) (name : String)
    (attrs : List (String × String)) (cs : List Node)
    (hhtml : s.document.isXML = false)
    (hk : getElementById "val" s.document = .found path)
    (hn : nodeAt path s.document.children = some (.element name attrs cs))
    (hurl : URL.resolves s.document.baseOpaque url = some true) :
    ∃ s1 s2 s3, commonCall url s = some (.normal s1) ∧ receiveAll evs s1 = some s2 ∧
      receive s.xhrs.length ⟨4, 200, b⟩ s2 = some s3 ∧
      (∀ x : XMLHttpRequest,
        onreadystatechange { x with readyState := 4, status := 200, responseText := b } s2
          = s2.setInnerHTML path b) ∧
      s3.calls = s2.calls ++ [HostCall.setInnerHTML path b] ∧
      (name ∈ HTML.flowContainers → (∀ c ∈ b.toList, HTML.isMarkupChar c = false) →
        s3.document.textContent "val" = some b) := by
  obtain ⟨s1, h1⟩ : ∃ s1, commonCall url s = some (.normal s1) := ⟨_, commonCall_normal hurl⟩
  obtain ⟨-, hd, -, -, -⟩ := commonCall_returns h1
  have hk1 : getElementById "val" s1.document = .found path := by rw [hd]; exact hk
  obtain ⟨s2, h2⟩ := receiveAll_defined evs (by rw [hd]; exact hhtml) hk1
  have hkeep := receiveAll_keeps h2
  obtain ⟨hk2, cs2, hn2⟩ := target_kept hkeep hk1 (by rw [hd]; exact hn)
  obtain ⟨x, hx, hh⟩ := handler_kept hkeep (commonCall_handler h1)
  have hhtml2 : s2.document.isXML = false := by rw [hkeep.1, hd]; exact hhtml
  obtain ⟨s3, h3, hd3, hc3, -⟩ := complete_html b hx hh hhtml2 hk2 hn2
  refine ⟨s1, s2, s3, h1, h2, h3, ?_, hc3, ?_⟩
  · intro y
    exact onreadystatechange_found rfl rfl hk2
  · intro hctx hplain
    rw [hd3, textContent_after _ hk2 hn2]
    exact fragment_plain b hctx hplain

/-- C8 on the sample page: the body "ON" is the text of the display target. -/
theorem C8_body_is_assigned_as_markup_witness :
    getElementById "val" samplePage.document = .found [0, 0, 1] ∧
    "p" ∈ HTML.flowContainers ∧ (∀ c ∈ "ON".toList, HTML.isMarkupChar c = false) ∧
    ∃ s1 s3, up samplePage = some (.normal s1) ∧ receive 0 ⟨4, 200, "ON"⟩ s1 = some s3 ∧
      s3.calls = s1.calls ++ [HostCall.setInnerHTML [0, 0, 1] "ON"] ∧
      s3.document.textContent "val" = some "ON" := by
  refine ⟨by decide, by decide, by decide, ?_⟩
  obtain ⟨s1, s2, s3, h1, h2, h3, -, hc, ht⟩ :=
    C8_body_is_assigned_as_markup samplePage "/up" "ON" [] [0, 0, 1] "p"
      [("id", "val"), ("class", "state")] [.text "old"] (by decide) (by decide) rfl (by decide)
  cases h2
  exact ⟨s1, s3, h1, h3, hc, ht (by decide) (by decide)⟩

/-- C8 as stated fails: `up()` on the sample page answered by 200 with the body
`<b>ON</b>` assigns that body to `innerHTML` and leaves the display target with
the text "ON", not with the body. -/
theorem C8_counterexample :
    ∃ s1 s3, up samplePage = some (.normal s1) ∧
      receive 0 ⟨4, 200, "<b>ON</b>"⟩ s1 = some s3 ∧
      s3.calls = s1.calls ++ [HostCall.setInnerHTML [0, 0, 1] "<b>ON</b>"] ∧
      s3.document.textContent "val" = some "ON" ∧
      s3.document.textContent "val" ≠ some "<b>ON</b>" :=
  ⟨_, _, commonCall_normal (by decide), rfl, by decide, by decide, by decide⟩

/-- C9, as the code has it: an event changes, of the page, at most the
children of the first element with id "val".  The kind and the base of the
document are kept; every node that neither lies below that element nor
encloses it is as before; that element and every element enclosing it keep
their name and attributes; without such an element the document is as before.
What was nested in the element is replaced.  `commonCall` itself leaves the
document as it is, however it ends. -/
theorem C9_only_target_subtree_changes (s : Browser) (i : Nat) (p : Progress) (url : String) :
    (∀ s', receive i p s = some s' →
      s'.document.isXML = s.document.isXML ∧
      s'.document.baseOpaque = s.document.baseOpaque ∧
      ((∀ path : List Nat, getElementById "val" s.document ≠ .found path) →
        s'.document = s.document) ∧
      ∀ path : List Nat, getElementById "val" s.document = .found path →
        (∀ q : List Nat, ¬ path <+: q → ¬ q <+: path →
          nodeAt q s'.document.children = nodeAt q s.document.children) ∧
        (∀ q : List Nat, q <+: path →
          (nodeAt q s'.document.children).bind Node.shallow
            = (nodeAt q s.document.children).bind Node.shallow)) ∧
    (∀ c, commonCall url s = some c → c.state.document = s.document) := by
  refine ⟨?_, fun c hc => commonCall_document hc⟩
  intro s' h
  rcases receive_frame h with ⟨hd, -⟩ | ⟨-, -, path0, hk0, -, hd | ⟨ns, hd⟩⟩
  · rw [hd]
    exact ⟨rfl, rfl, fun _ => rfl, fun _ _ => ⟨fun _ _ _ => rfl, fun _ _ => rfl⟩⟩
  · rw [hd]
    exact ⟨rfl, rfl, fun _ => rfl, fun _ _ => ⟨fun _ _ _ => rfl, fun _ _ => rfl⟩⟩
  · rw [hd]
    refine ⟨rfl, rfl, fun hno => absurd hk0 (hno path0), ?_⟩
    intro path hk
    have hp : path = path0 := Lookup.found.inj (hk.symm.trans hk0)
    subst hp
    exact ⟨fun q h1 h2 => nodeAt_replaceChildren_apart ns _ h1 h2,
      fun q hq => shallow_replaceChildren ns _ hq⟩

/-- C9 on the nested page with a request in flight: a completion with 200 "ON"
leaves the `em` after the display target as it was, and the enclosing `div`
and the target with their names and attributes. -/
theorem C9_only_target_subtree_changes_witness :
    ∃ s1 s3, up nestedPage = some (.normal s1) ∧ receive 0 ⟨4, 200, "ON"⟩ s1 = some s3 ∧
      getElementById "val" s1.document = .found [0, 0] ∧
      nodeAt [0, 1] s3.document.children = nodeAt [0, 1] s1.document.children ∧
      (nodeAt [0] s3.document.children).bind Node.shallow
        = (nodeAt [0] s1.document.children).bind Node.shallow ∧
      (nodeAt [0, 0] s3.document.children).bind Node.shallow
        = (nodeAt [0, 0] s1.document.children).bind Node.shallow := by
  obtain ⟨s1, h1⟩ : ∃ s1, up nestedPage = some (.normal s1) :=
    ⟨_, commonCall_normal (by decide)⟩
  have hd : s1.document = nestedPage.document := (commonCall_returns h1).2.1
  have hk : getElementById "val" s1.document = .found [0, 0] := by rw [hd]; decide
  obtain ⟨s3, h3⟩ := receive_defined 0 ⟨4, 200, "ON"⟩ (by rw [hd]; rfl) hk
  obtain ⟨-, -, -, hf⟩ := (C9_only_target_subtree_changes s1 0 ⟨4, 200, "ON"⟩ "/up").1 s3 h3
  obtain ⟨f1, f2⟩ := hf [0, 0] hk
  exact ⟨s1, s3, h1, h3, hk, f1 [0, 1] (by decide) (by decide), f2 [0] (by decide),
    f2 [0, 0] (by decide)⟩

/-- C9 as stated fails: on the nested page the `span` with id "inner" lies in
the display target; after `up()` and a completion with 200 "ON" that element
is no longer in the page, and the text of the enclosing `div` has changed. -/
theorem C9_counterexample :
    getElementById "inner" nestedPage.document = .found [0, 0, 1] ∧
    nestedPage.document.textContent "box" = some "old xy" ∧
    ∃ s1 s3, up nestedPage = some (.normal s1) ∧ receive 0 ⟨4, 200, "ON"⟩ s1 = some s3 ∧
      getElementById "inner" s3.document = .absent ∧
      s3.document.textContent "box" = some "ONy" :=
  ⟨by decide, by decide, _, _, commonCall_normal (by decide), rfl, by decide, by decide⟩

theorem Document.setInnerHTML_ok_xml {d d' : Document} {p : List Nat} {markup : String}
    (h : d.setInnerHTML p markup = some (.ok d')) (hx : d.isXML = true) :
    (XML.parseFragment markup).isNotWellFormed = false := by
  unfold Document.setInnerHTML at h
  split at h
  · rw [if_pos hx] at h
    split at h
    · simp at h
    · simp at h
    · rename_i ns hp
      rw [hp]
      rfl
  · simp at h

/-- C10, as the code has it: the handler raises an error exactly when the
event has readyState 4 and status 200 and either the page has no element with
id "val" (a `TypeError`) or the page is an XML document, the element exists and
the body is not well formed (a `SyntaxError` of the `innerHTML` setter).  For
every other event the handler returns normally, and on an HTML page whose
display target exists it returns normally on every event. -/
theorem C10_handler_fails_iff_target_missing (this : XMLHttpRequest) (s : Browser) :
    (∀ c, onreadystatechange this s = some c →
      ((∃ e s', c = .throws e s') ↔
        (this.readyState = 4 ∧ this.status = 200 ∧
          (getElementById "val" s.document = .absent ∨
           (s.document.isXML = true ∧
            (∃ path, getElementById "val" s.document = .found path) ∧
            (XML.parseFragment this.responseText).isNotWellFormed = true))))) ∧
    (s.document.isXML = false → ∀ path, getElementById "val" s.document = .found path →
      ∃ s', onreadystatechange this s = some (.normal s')) ∧
    (¬ (this.readyState = 4 ∧ this.status = 200) →
      onreadystatechange this s = some (.normal s)) ∧
    (this.readyState = 4 → this.status = 200 →
      getElementById "val" s.document = .absent →
      onreadystatechange this s = some (.throws .typeError s)) := by
  refine ⟨?_, ?_, fun h => onreadystatechange_skip h,
    fun hr hs hk => onreadystatechange_missing hr hs hk⟩
  · intro c hc
    by_cases hcond : this.readyState = 4 ∧ this.status = 200
    · cases hk : getElementById "val" s.document with
      | beyond => rw [onreadystatechange_beyond hcond.1 hcond.2 hk] at hc; cases hc
      | absent =>
        rw [onreadystatechange_missing hcond.1 hcond.2 hk] at hc
        cases hc
        exact ⟨fun _ => ⟨hcond.1, hcond.2, Or.inl rfl⟩, fun _ => ⟨_, _, rfl⟩⟩
      | found path =>
        rw [onreadystatechange_found hcond.1 hcond.2 hk] at hc
        unfold Browser.setInnerHTML at hc
        cases hr : s.document.setInnerHTML path this.responseText with
        | none => rw [hr] at hc; cases hc
        | some r =>
          rw [hr] at hc
          cases r with
          | error e =>
            simp only [Option.some.injEq] at hc
            subst hc
            obtain ⟨-, hx, hw⟩ := Document.setInnerHTML_error hr
            exact ⟨fun _ => ⟨hcond.1, hcond.2, Or.inr ⟨hx, ⟨path, rfl⟩, hw⟩⟩,
              fun _ => ⟨_, _, rfl⟩⟩
          | ok d =>
            simp only [Option.some.injEq] at hc
            subst hc
            constructor
            · rintro ⟨e, s', he⟩
              cases he
            · rintro ⟨-, -, h | ⟨hx, -, hw⟩⟩
              · cases h
              · rw [Document.setInnerHTML_ok_xml hr hx] at hw
                cases hw
    · rw [onreadystatechange_skip hcond] at hc
      cases hc
      constructor
      · rintro ⟨e, s', he⟩
        cases he
      · rintro ⟨h1, h2, -⟩
        exact absurd ⟨h1, h2⟩ hcond
  · intro hx path hk
    by_cases hcond : this.readyState = 4 ∧ this.status = 200
    · obtain ⟨name, attrs, cs, hn, -⟩ := nodeAt_of_lookup hk
      rw [onreadystatechange_found hcond.1 hcond.2 hk]
      simp [Browser.setInnerHTML, Document.setInnerHTML_html this.responseText hx hn]
    · exact ⟨s, onreadystatechange_skip hcond⟩

/-- C10 on three pages: without the element the handler throws a `TypeError`
on a completion with status 200; with it, on the HTML page, the handler
returns; on the XML page a well-formed body is accepted. -/
theorem C10_handler_fails_iff_target_missing_witness :
    getElementById "val" bareBrowser.document = .absent ∧
    onreadystatechange (sampleDone "ON") bareBrowser = some (.throws .typeError bareBrowser) ∧
    samplePage.document.isXML = false ∧
    getElementById "val" samplePage.document = .found [0, 0, 1] ∧
    (∃ s', onreadystatechange (sampleDone "ON") samplePage = some (.normal s')) ∧
    (∀ c, onreadystatechange (sampleDone "<b>ON</b>") sampleXhtml = some c →
      ¬ ∃ e s', c = .throws e s') := by
  have h1 := C10_handler_fails_iff_target_missing (sampleDone "ON") bareBrowser
  have h2 := C10_handler_fails_iff_target_missing (sampleDone "ON") samplePage
  have h3 := C10_handler_fails_iff_target_missing (sampleDone "<b>ON</b>") sampleXhtml
  refine ⟨by decide, h1.2.2.2 rfl rfl (by decide), rfl, by decide,
    h2.2.1 rfl [0, 0, 1] (by decide), ?_⟩
  intro c hc hthrow
  obtain ⟨-, -, h | ⟨-, -, hw⟩⟩ := (h3.1 c hc).1 hthrow
  · exact absurd h (by decide)
  · exact absurd hw (by decide)

/-- C10 as stated fails: on the XML page the element with id "val" exists, and
on a completion with status 200 whose body `<b>ON` is not well formed the
handler throws a `SyntaxError`. -/
theorem C10_counterexample :
    getElementById "val" sampleXhtml.document = .found [0, 0, 1] ∧
    ∃ s', onreadystatechange (sampleDone "<b>ON") sampleXhtml
      = some (.throws .syntaxError s') :=
  ⟨by decide, _, rfl⟩

end Behavior
